import Mathlib

/-!
# Banking service: ledger operations and account store

A shallow embedding of `internal/account/account.go`, `internal/store/store.go`,
`pkg/errors/errors.go`, the record type of `internal/transaction/transaction.go`, and the
`GetAccount`, `Withdraw`, `UpdateAccount` calls of `Handler.Withdraw` in
`internal/api/handlers.go`.

Modelling conventions

* Go `int64` values are Lean integers; every arithmetic result is passed through
  `wrapInt64`, the two's-complement wrap-around of Go's `+=` and `-=`.  The predicate
  `InInt64` says that an integer is a value an `int64` variable can hold.
* A `*Account` is `Option Addr` (`none` is `nil`); the records live in a `Heap`, and
  every operation that receives a pointer takes the heap and returns the heap it leaves
  behind.  Two pointers may alias: writes go through `Heap.set`, one address at a time,
  in the order of the source statements.
* `time.Now()` is an argument `now`; the random bytes drawn by `uuid.New()` are an
  argument as well.
* A Go `error` result is an `Outcome`: `ok` for `nil`, `error e` for a typed error value,
  `panic` for a run-time panic (dereferencing `nil`).
-/

namespace Banking

/-! ## Machine integers -/

/-- Values representable in a Go `int64`. -/
def InInt64 (x : Int) : Prop := -(2 : Int) ^ 63 ≤ x ∧ x < (2 : Int) ^ 63

instance (x : Int) : Decidable (InInt64 x) :=
  inferInstanceAs (Decidable (-(2 : Int) ^ 63 ≤ x ∧ x < (2 : Int) ^ 63))

/-- Two's-complement wrap-around of an exact integer result into the `int64` range. -/
def wrapInt64 (x : Int) : Int := (x + (2 : Int) ^ 63) % (2 : Int) ^ 64 - (2 : Int) ^ 63

/-! ## pkg/errors -/

/-- The typed error values of `pkg/errors/errors.go`, one constructor per struct, with
the struct's fields in declaration order. -/
inductive BankError where
  | ErrAccountNotFound (AccountID : String)
  | ErrInsufficientFunds (AccountID : String) (Balance : Int) (Amount : Int)
  | ErrInvalidAmount (Amount : Int)
  | ErrInvalidCustomerName (Name : String)
  | ErrInvalidInitialBalance (Balance : Int)
  | ErrTransactionFailed (TransactionID : String) (Reason : String)
  | ErrSameAccountTransfer (FromAccountID : String) (ToAccountID : String)
  deriving DecidableEq, Repr

/-- How a call ends: `ok` is a `nil` error, `error e` a returned error value, `panic` a
run-time panic. -/
inductive Outcome where
  | ok
  | error (e : BankError)
  | panic
  deriving DecidableEq, Repr

/-! ## Time and identifiers -/

/-- An instant as read by `time.Now()`. -/
abbrev Time := Nat

/-- A 128-bit UUID: sixteen bytes. -/
abbrev UUID := Fin 16 → Fin 256

/-- One lower-case hexadecimal digit. -/
def hexDigit (n : Nat) : Char :=
  if n < 10 then Char.ofNat (48 + n) else Char.ofNat (87 + n)

/-- Two hexadecimal digits of a byte, high nibble first (`hex.Encode`). -/
def hexByte (b : Fin 256) : List Char := [hexDigit (b.val / 16), hexDigit (b.val % 16)]

/-- Modelled from the spec: the identifier generator is the external package
`github.com/google/uuid`, which is not part of the repository sources.  The spec calls
the identifier an "opaque unique string, generated at creation" and requires it to be
non-empty; the model is the package's version-4 generator: sixteen random bytes with the
version nibble of byte 6 set to 4 and the two top bits of byte 8 set to `10`.  A failure
of the random source, on which `uuid.New()` panics, is not modelled. -/
def uuidNew (rnd : Fin 16 → Fin 256) : UUID := fun i =>
  if i = 6 then ⟨(rnd i).val % 16 + 64, by omega⟩
  else if i = 8 then ⟨(rnd i).val % 64 + 128, by omega⟩
  else rnd i

/-- Modelled from the spec: `UUID.String()` of the same external package, the canonical
36-character form `xxxxxxxx-xxxx-xxxx-xxxx-xxxxxxxxxxxx`. -/
def uuidString (u : UUID) : String :=
  String.mk
    (hexByte (u 0) ++ hexByte (u 1) ++ hexByte (u 2) ++ hexByte (u 3) ++ ['-'] ++
     hexByte (u 4) ++ hexByte (u 5) ++ ['-'] ++
     hexByte (u 6) ++ hexByte (u 7) ++ ['-'] ++
     hexByte (u 8) ++ hexByte (u 9) ++ ['-'] ++
     hexByte (u 10) ++ hexByte (u 11) ++ hexByte (u 12) ++ hexByte (u 13) ++
     hexByte (u 14) ++ hexByte (u 15))

/-! ## internal/account: data -/

/-- The record `account.Account`. -/
structure Account where
  ID : String
  CustomerName : String
  Balance : Int
  CreatedAt : Time
  UpdatedAt : Time
  deriving DecidableEq, Repr

/-- The record `account.CreateAccountRequest`. -/
structure CreateAccountRequest where
  CustomerName : String
  InitialBalance : Int
  deriving DecidableEq, Repr

/-- An address of an `Account` record. -/
abbrev Addr := Nat

/-- A `*Account`: `none` is `nil`. -/
abbrev AccountPtr := Option Addr

/-- The `Account` records in memory: the contents of every address, and the first
address not yet handed out by an allocation. -/
structure Heap where
  cell : Addr → Account
  next : Addr

/-- Overwrite the record at one address. -/
def Heap.set (h : Heap) (p : Addr) (a : Account) : Heap :=
  { h with cell := Function.update h.cell p a }

/-- Allocation `&Account{...}`: the record is placed at the first free address. -/
def Heap.alloc (h : Heap) (a : Account) : Heap × Addr :=
  ({ cell := Function.update h.cell h.next a, next := h.next + 1 }, h.next)

/-! ## internal/account: operations -/

/-- `Service.CreateAccount`; `rnd` are the random bytes consumed by `uuid.New()` and
`now` is the value of `time.Now()`. -/
def CreateAccount (h : Heap) (req : CreateAccountRequest) (rnd : Fin 16 → Fin 256)
    (now : Time) : Heap × AccountPtr × Outcome :=
  if req.CustomerName = "" then
    (h, none, Outcome.error (BankError.ErrInvalidCustomerName req.CustomerName))
  else if req.InitialBalance < 0 then
    (h, none, Outcome.error (BankError.ErrInvalidInitialBalance req.InitialBalance))
  else
    let accountID := uuidString (uuidNew rnd)
    let account : Account :=
      { ID := accountID
        CustomerName := req.CustomerName
        Balance := req.InitialBalance
        CreatedAt := now
        UpdatedAt := now }
    ((h.alloc account).1, some (h.alloc account).2, Outcome.ok)

/-- `Service.ValidateAccount`. -/
def ValidateAccount (h : Heap) (account : AccountPtr) : Heap × Outcome :=
  if account = none then
    (h, Outcome.error (BankError.ErrAccountNotFound "nil"))
  else
    (h, Outcome.ok)

/-- `Service.CanWithdraw`. -/
def CanWithdraw (h : Heap) (account : AccountPtr) (amount : Int) : Heap × Outcome :=
  match ValidateAccount h account with
  | (h1, Outcome.ok) =>
    if amount ≤ 0 then
      (h1, Outcome.error (BankError.ErrInvalidAmount amount))
    else
      match account with
      | none => (h1, Outcome.panic)
      | some p =>
        if (h1.cell p).Balance < amount then
          (h1, Outcome.error
            (BankError.ErrInsufficientFunds (h1.cell p).ID (h1.cell p).Balance amount))
        else
          (h1, Outcome.ok)
  | (h1, err) => (h1, err)

/-- `Service.Deposit`. -/
def Deposit (h : Heap) (account : AccountPtr) (amount : Int) (now : Time) :
    Heap × Outcome :=
  match ValidateAccount h account with
  | (h1, Outcome.ok) =>
    if amount ≤ 0 then
      (h1, Outcome.error (BankError.ErrInvalidAmount amount))
    else
      match account with
      | none => (h1, Outcome.panic)
      | some p =>
        let h2 := h1.set p { h1.cell p with Balance := wrapInt64 ((h1.cell p).Balance + amount) }
        let h3 := h2.set p { h2.cell p with UpdatedAt := now }
        (h3, Outcome.ok)
  | (h1, err) => (h1, err)

/-- `Service.Withdraw`. -/
def Withdraw (h : Heap) (account : AccountPtr) (amount : Int) (now : Time) :
    Heap × Outcome :=
  match CanWithdraw h account amount with
  | (h1, Outcome.ok) =>
    match account with
    | none => (h1, Outcome.panic)
    | some p =>
      let h2 := h1.set p { h1.cell p with Balance := wrapInt64 ((h1.cell p).Balance - amount) }
      let h3 := h2.set p { h2.cell p with UpdatedAt := now }
      (h3, Outcome.ok)
  | (h1, err) => (h1, err)

/-- `Service.Transfer`.  The four field writes are applied in source order, each through
the pointer it is written through, so aliased pointers see each other's writes. -/
def Transfer (h : Heap) (fromAccount toAccount : AccountPtr) (amount : Int) (now : Time) :
    Heap × Outcome :=
  match ValidateAccount h fromAccount with
  | (h1, Outcome.ok) =>
    match ValidateAccount h1 toAccount with
    | (h2, Outcome.ok) =>
      match fromAccount, toAccount with
      | some f, some t =>
        if (h2.cell f).ID = (h2.cell t).ID then
          (h2, Outcome.error
            (BankError.ErrSameAccountTransfer (h2.cell f).ID (h2.cell t).ID))
        else if amount ≤ 0 then
          (h2, Outcome.error (BankError.ErrInvalidAmount amount))
        else
          match CanWithdraw h2 fromAccount amount with
          | (h3, Outcome.ok) =>
            let h4 := h3.set f { h3.cell f with Balance := wrapInt64 ((h3.cell f).Balance - amount) }
            let h5 := h4.set t { h4.cell t with Balance := wrapInt64 ((h4.cell t).Balance + amount) }
            let h6 := h5.set f { h5.cell f with UpdatedAt := now }
            let h7 := h6.set t { h6.cell t with UpdatedAt := now }
            (h7, Outcome.ok)
          | (h3, err) => (h3, err)
      | _, _ => (h2, Outcome.panic)
    | (h2, err) => (h2, err)
  | (h1, err) => (h1, err)

/-! ## internal/transaction: data -/

/-- The string type `transaction.TransactionType`. -/
abbrev TransactionType := String

/-- The string type `transaction.TransactionStatus`. -/
abbrev TransactionStatus := String

/-- The record `transaction.Transaction`; the Go field `Type` is `TxType` here. -/
structure Transaction where
  ID : String
  TxType : TransactionType
  AccountID : String
  FromAccountID : String
  ToAccountID : String
  Amount : Int
  Timestamp : Time
  Status : TransactionStatus
  deriving DecidableEq, Repr

/-- A `*Transaction`: `none` is `nil`. -/
abbrev TransactionPtr := Option Addr

/-- The `Transaction` records in memory. -/
structure TxHeap where
  cell : Addr → Transaction
  next : Addr

/-! ## internal/store

The store keeps pointers: `accounts` maps an identifier to the `*Account` it was given,
and `GetAccount` hands that same pointer back.  The store methods read the `ID` field of
the record they are given and write no field of any record, so the heap is an argument of
the methods that dereference and is not returned.  Every method holds the store lock from
its first to its last statement; it is one atomic step here.
-/

/-- A Go `map[string]V`: finitely many entries with pairwise distinct keys.  Go leaves
the iteration order of a map unspecified; the order of `entries` stands for it, and no
statement below depends on it. -/
abbrev GoMap (V : Type) := AList (fun _ : String => V)

/-- A Go `error` value returned by the store: a pointer to one of the structs of
`pkg/errors`, or the string error built by `fmt.Errorf` with the given message. -/
inductive GoError where
  | typed (e : BankError)
  | errorf (message : String)
  deriving DecidableEq, Repr

/-- How a store call ends: `ok` is a `nil` error, `panic` a run-time panic. -/
inductive StoreOutcome where
  | ok
  | error (e : GoError)
  | panic
  deriving DecidableEq, Repr

/-- The struct `store.Store` without its lock. -/
structure Store where
  accounts : GoMap AccountPtr
  transactions : GoMap TransactionPtr

/-- `store.NewStore`. -/
def NewStore : Store :=
  { accounts := ∅, transactions := ∅ }

/-- `Store.CreateAccount`. -/
def Store.CreateAccount (s : Store) (h : Heap) (acc : AccountPtr) : Store × StoreOutcome :=
  match acc with
  | none => (s, StoreOutcome.panic)
  | some p =>
    if (s.accounts.lookup (h.cell p).ID).isSome then
      (s, StoreOutcome.error
        (GoError.errorf ("account with ID " ++ (h.cell p).ID ++ " already exists")))
    else
      ({ s with accounts := s.accounts.insert (h.cell p).ID acc }, StoreOutcome.ok)

/-- `Store.GetAccount`. -/
def Store.GetAccount (s : Store) (id : String) : Store × AccountPtr × StoreOutcome :=
  match s.accounts.lookup id with
  | none => (s, none, StoreOutcome.error (GoError.typed (BankError.ErrAccountNotFound id)))
  | some acc => (s, acc, StoreOutcome.ok)

/-- `Store.UpdateAccount`. -/
def Store.UpdateAccount (s : Store) (h : Heap) (acc : AccountPtr) : Store × StoreOutcome :=
  match acc with
  | none => (s, StoreOutcome.panic)
  | some p =>
    if ¬ (s.accounts.lookup (h.cell p).ID).isSome then
      (s, StoreOutcome.error (GoError.typed (BankError.ErrAccountNotFound (h.cell p).ID)))
    else
      ({ s with accounts := s.accounts.insert (h.cell p).ID acc }, StoreOutcome.ok)

/-- `Store.StoreTransaction`. -/
def Store.StoreTransaction (s : Store) (th : TxHeap) (tx : TransactionPtr) :
    Store × StoreOutcome :=
  match tx with
  | none => (s, StoreOutcome.panic)
  | some p =>
    if (s.transactions.lookup (th.cell p).ID).isSome then
      (s, StoreOutcome.error
        (GoError.errorf ("transaction with ID " ++ (th.cell p).ID ++ " already exists")))
    else
      ({ s with transactions := s.transactions.insert (th.cell p).ID tx }, StoreOutcome.ok)

/-- `Store.GetTransaction`. -/
def Store.GetTransaction (s : Store) (id : String) : Store × TransactionPtr × StoreOutcome :=
  match s.transactions.lookup id with
  | none => (s, none, StoreOutcome.error (GoError.errorf ("transaction not found: " ++ id)))
  | some tx => (s, tx, StoreOutcome.ok)

/-- `Store.GetAllAccounts`: the values of the map, one per entry, in iteration order. -/
def Store.GetAllAccounts (s : Store) : Store × List AccountPtr :=
  (s, s.accounts.entries.map fun e => e.2)

/-- `Store.GetAllTransactions`. -/
def Store.GetAllTransactions (s : Store) : Store × List TransactionPtr :=
  (s, s.transactions.entries.map fun e => e.2)

/-- `Store.Clear`. -/
def Store.Clear (_s : Store) : Store :=
  { accounts := ∅, transactions := ∅ }

/-- The `Create` calls of a list of callers, one atomic step after the other, with the
outcome of every call. -/
def createAll (s : Store) (h : Heap) : List AccountPtr → Store × List StoreOutcome
  | [] => (s, [])
  | acc :: rest =>
    ((createAll (s.CreateAccount h acc).1 h rest).1,
     (s.CreateAccount h acc).2 :: (createAll (s.CreateAccount h acc).1 h rest).2)

/-! ## Specification-side definition of `Withdraw` -/

/-- `Withdraw` as the specification words it: "runs `CanWithdraw`; on success decreases
balance by amount and refreshes updated-at".  The decrease is the exact integer
difference; this definition is compared with `Withdraw`, which is the one translated from
the source. -/
def WithdrawSpec (h : Heap) (account : AccountPtr) (amount : Int) (now : Time) :
    Heap × Outcome :=
  match CanWithdraw h account amount, account with
  | (h1, Outcome.ok), some p =>
    (h1.set p { h1.cell p with Balance := (h1.cell p).Balance - amount, UpdatedAt := now },
     Outcome.ok)
  | (h1, out), _ => (h1, out)

/-! ## internal/api: the withdrawal cycle

The calls `GetAccount`, `Withdraw`, `UpdateAccount` that `Handler.Withdraw` makes for one
request.  The two store calls hold the store lock and are one step each.  `Withdraw` holds
no lock: neither the handler nor `account.Service` takes one, so another request may run
between its statements.  It is therefore split at its own statements: the call of
`CanWithdraw`, the subtraction `account.Balance -= amount`, and the write of
`account.UpdatedAt`.  Decoding the request, logging, the audit transaction and the
response are left out.
-/

/-- How far one request has come: before `GetAccount`; holding the pointer; past
`CanWithdraw`; past the subtraction; `Withdraw` returned `nil`; `UpdateAccount` returned
`nil`; ended by an error of `GetAccount` or `Withdraw`; ended by an error of
`UpdateAccount`; ended by a nil dereference. -/
inductive Stage where
  | start
  | fetched
  | checked
  | subtracted
  | debited
  | finished
  | failed
  | updateFailed
  | panicked
  deriving DecidableEq, Repr

/-- One request to `Handler.Withdraw`: the fields of the request, the local variable
`acc`, and the stage reached. -/
structure WithdrawCall where
  AccountID : String
  Amount : Int
  acc : AccountPtr
  stage : Stage
  deriving DecidableEq, Repr

/-- A request that has not started yet. -/
def WithdrawCall.new (accountID : String) (amount : Int) : WithdrawCall :=
  { AccountID := accountID, Amount := amount, acc := none, stage := Stage.start }

/-- Whether `CanWithdraw` returned `nil` for the request. -/
def WithdrawCall.passedCheck (c : WithdrawCall) : Bool :=
  c.stage = Stage.checked ∨ c.stage = Stage.subtracted ∨ c.stage = Stage.debited ∨
    c.stage = Stage.finished ∨ c.stage = Stage.updateFailed

/-- Whether `accountService.Withdraw` returned `nil` for the request. -/
def WithdrawCall.succeeded (c : WithdrawCall) : Bool :=
  c.stage = Stage.debited ∨ c.stage = Stage.finished ∨ c.stage = Stage.updateFailed

/-- The next step of one request on the shared heap and store: `GetAccount`; then the
statements of `Withdraw` on the pointer it returned, one at a time; then `UpdateAccount`
with the same pointer.  An error of any call ends the request. -/
def WithdrawCall.step (c : WithdrawCall) (now : Time) (w : Heap × Store) :
    (Heap × Store) × WithdrawCall :=
  match c.stage with
  | Stage.start =>
    match w.2.GetAccount c.AccountID with
    | (s, acc, StoreOutcome.ok) => ((w.1, s), { c with acc := acc, stage := Stage.fetched })
    | (s, _, _) => ((w.1, s), { c with stage := Stage.failed })
  | Stage.fetched =>
    match CanWithdraw w.1 c.acc c.Amount with
    | (h, Outcome.ok) => ((h, w.2), { c with stage := Stage.checked })
    | (h, _) => ((h, w.2), { c with stage := Stage.failed })
  | Stage.checked =>
    match c.acc with
    | none => (w, { c with stage := Stage.panicked })
    | some p =>
      ((w.1.set p { w.1.cell p with Balance := wrapInt64 ((w.1.cell p).Balance - c.Amount) },
        w.2),
       { c with stage := Stage.subtracted })
  | Stage.subtracted =>
    match c.acc with
    | none => (w, { c with stage := Stage.panicked })
    | some p =>
      ((w.1.set p { w.1.cell p with UpdatedAt := now }, w.2), { c with stage := Stage.debited })
  | Stage.debited =>
    match w.2.UpdateAccount w.1 c.acc with
    | (s, StoreOutcome.ok) => ((w.1, s), { c with stage := Stage.finished })
    | (s, _) => ((w.1, s), { c with stage := Stage.updateFailed })
  | Stage.finished => (w, c)
  | Stage.failed => (w, c)
  | Stage.updateFailed => (w, c)
  | Stage.panicked => (w, c)

/-- The next whole call of one request, run without interruption: `GetAccount`, or all of
`Withdraw` (its three statements in a row), or `UpdateAccount`.  This is the step of a
schedule "at the granularity of whole store and ledger calls"; the program itself may
be interrupted between any two steps of `WithdrawCall.step`. -/
def WithdrawCall.callStep (c : WithdrawCall) (now : Time) (w : Heap × Store) :
    (Heap × Store) × WithdrawCall :=
  match c.stage with
  | Stage.fetched =>
    ((c.step now w).2.step now (c.step now w).1).2.step now
      ((c.step now w).2.step now (c.step now w).1).1
  | _ => c.step now w

/-- Two requests run under a schedule with a given notion of step: each entry names the
request that moves next (`false` the first, `true` the second) and the time at which it
does. -/
def runWith (stepOf : WithdrawCall → Time → Heap × Store → (Heap × Store) × WithdrawCall) :
    List (Bool × Time) → (Heap × Store) × WithdrawCall × WithdrawCall →
    (Heap × Store) × WithdrawCall × WithdrawCall
  | [], st => st
  | (who, now) :: rest, (w, c1, c2) =>
    if who then
      runWith stepOf rest ((stepOf c2 now w).1, c1, (stepOf c2 now w).2)
    else
      runWith stepOf rest ((stepOf c1 now w).1, (stepOf c1 now w).2, c2)

/-- Two requests interleaved statement by statement, as the program allows. -/
def runSchedule : List (Bool × Time) → (Heap × Store) × WithdrawCall × WithdrawCall →
    (Heap × Store) × WithdrawCall × WithdrawCall :=
  runWith WithdrawCall.step

/-- Two requests interleaved whole call by whole call. -/
def runCalls : List (Bool × Time) → (Heap × Store) × WithdrawCall × WithdrawCall →
    (Heap × Store) × WithdrawCall × WithdrawCall :=
  runWith WithdrawCall.callStep

/-- The schedule in which the two requests alternate at every step: both fetch, both
run `CanWithdraw`, both subtract, both write the timestamp, both update. -/
def raceSchedule (now : Time) : List (Bool × Time) :=
  [(false, now), (true, now), (false, now), (true, now), (false, now), (true, now),
   (false, now), (true, now), (false, now), (true, now)]

/-- Whether a request stands between two of its calls (not inside `Withdraw`). -/
def WithdrawCall.betweenCalls (c : WithdrawCall) : Bool :=
  c.stage ≠ Stage.checked ∧ c.stage ≠ Stage.subtracted ∧ c.stage ≠ Stage.panicked

/-- What holds between whole calls in every state of two withdrawal cycles for the
identifier `id`, stored with the pointer `p` whose record held the balance `b0` at the
start: the store still maps `id` to `p`, a request that has fetched holds `p`, and the
record's balance is `b0` minus the amounts of the withdrawals that have succeeded so
far. -/
def SharedRecordInv (id : String) (p : Addr) (b0 a1 a2 : Int)
    (st : (Heap × Store) × WithdrawCall × WithdrawCall) : Prop :=
  st.1.2.accounts.lookup id = some (some p) ∧
  (st.2.1.AccountID = id ∧ st.2.1.Amount = a1 ∧ st.2.1.betweenCalls = true) ∧
  (st.2.2.AccountID = id ∧ st.2.2.Amount = a2 ∧ st.2.2.betweenCalls = true) ∧
  (st.2.1.stage = Stage.fetched ∨ st.2.1.stage = Stage.debited → st.2.1.acc = some p) ∧
  (st.2.2.stage = Stage.fetched ∨ st.2.2.stage = Stage.debited → st.2.2.acc = some p) ∧
  (st.1.1.cell p).Balance =
    b0 - (if st.2.1.succeeded then a1 else 0) - (if st.2.2.succeeded then a2 else 0) ∧
  (st.2.1.succeeded = true → 0 < a1) ∧
  (st.2.2.succeeded = true → 0 < a2) ∧
  (st.2.1.succeeded = true ∨ st.2.2.succeeded = true → 0 ≤ (st.1.1.cell p).Balance) ∧
  InInt64 (st.1.1.cell p).Balance

/-! ## Sequences of store calls -/

/-- One call of a method that writes the store. -/
inductive StoreOp where
  | create (acc : AccountPtr)
  | update (acc : AccountPtr)
  | storeTransaction (tx : TransactionPtr)
  | clear
  deriving DecidableEq, Repr

/-- The store left behind by one call. -/
def StoreOp.apply (h : Heap) (th : TxHeap) (s : Store) : StoreOp → Store
  | StoreOp.create acc => (s.CreateAccount h acc).1
  | StoreOp.update acc => (s.UpdateAccount h acc).1
  | StoreOp.storeTransaction tx => (s.StoreTransaction th tx).1
  | StoreOp.clear => s.Clear

/-- The store left behind by a sequence of calls. -/
def runOps (h : Heap) (th : TxHeap) (s : Store) (ops : List StoreOp) : Store :=
  ops.foldl (StoreOp.apply h th) s

/-! ## Sample states used to instantiate the theorems -/

/-- A sample record with the given identifier and balance. -/
def sampleAccount (id : String) (balance : Int) : Account :=
  { ID := id, CustomerName := "Ravi Kumar", Balance := balance, CreatedAt := 0, UpdatedAt := 0 }

/-- A sample heap: account `A` with balance 1000 at address 0, account `B` with balance
500 at address 1, a second record of account `A` at address 2, and an account `Z` holding
the largest `int64` balance everywhere else. -/
def sampleHeap : Heap :=
  { cell := fun a =>
      if a = 0 then sampleAccount "A" 1000
      else if a = 1 then sampleAccount "B" 500
      else if a = 2 then sampleAccount "A" 40
      else sampleAccount "Z" 9223372036854775807
    next := 4 }

/-- A sample transaction heap: a deposit `T1` at address 0 and a withdrawal `T2`
everywhere else. -/
def sampleTxHeap : TxHeap :=
  { cell := fun a =>
      if a = 0 then
        { ID := "T1", TxType := "deposit", AccountID := "A", FromAccountID := "",
          ToAccountID := "", Amount := 1000, Timestamp := 0, Status := "completed" }
      else
        { ID := "T2", TxType := "withdrawal", AccountID := "A", FromAccountID := "",
          ToAccountID := "", Amount := 500, Timestamp := 0, Status := "completed" }
    next := 2 }

/-- A sample store: the accounts at addresses 0 (`A`) and 1 (`B`) of the sample heap, and
the transaction at address 0 of the sample transaction heap. -/
def sampleStore : Store :=
  (((NewStore.CreateAccount sampleHeap (some 0)).1.CreateAccount sampleHeap (some 1)).1.StoreTransaction
    sampleTxHeap (some 0)).1

/-! ## Basic facts about the embedding -/

theorem wrapInt64_eq_self {x : Int} (hx : InInt64 x) : wrapInt64 x = x := by
  unfold InInt64 at hx
  unfold wrapInt64
  omega

theorem Heap.cell_set_same (h : Heap) (p : Addr) (a : Account) : (h.set p a).cell p = a := by
  simp [Heap.set]

theorem Heap.cell_set_other (h : Heap) {p q : Addr} (a : Account) (hne : q ≠ p) :
    (h.set p a).cell q = h.cell q := by
  simp [Heap.set, Function.update_noteq hne]

theorem createAccount_empty_name (h : Heap) (req : CreateAccountRequest)
    (rnd : Fin 16 → Fin 256) (now : Time) (hn : req.CustomerName = "") :
    CreateAccount h req rnd now =
      (h, none, Outcome.error (BankError.ErrInvalidCustomerName req.CustomerName)) := by
  simp [CreateAccount, hn]

theorem createAccount_negative (h : Heap) (req : CreateAccountRequest)
    (rnd : Fin 16 → Fin 256) (now : Time) (hn : req.CustomerName ≠ "")
    (hb : req.InitialBalance < 0) :
    CreateAccount h req rnd now =
      (h, none, Outcome.error (BankError.ErrInvalidInitialBalance req.InitialBalance)) := by
  simp [CreateAccount, hn, hb]

theorem createAccount_ok (h : Heap) (req : CreateAccountRequest)
    (rnd : Fin 16 → Fin 256) (now : Time) (hn : req.CustomerName ≠ "")
    (hb : 0 ≤ req.InitialBalance) :
    CreateAccount h req rnd now =
      ({ cell := Function.update h.cell h.next
                   { ID := uuidString (uuidNew rnd)
                     CustomerName := req.CustomerName
                     Balance := req.InitialBalance
                     CreatedAt := now
                     UpdatedAt := now }
         next := h.next + 1 },
       some h.next, Outcome.ok) := by
  have hnb : ¬ req.InitialBalance < 0 := not_lt.mpr hb
  simp [CreateAccount, hn, hnb, Heap.alloc]

theorem validateAccount_some (h : Heap) (p : Addr) :
    ValidateAccount h (some p) = (h, Outcome.ok) := by
  simp [ValidateAccount]

theorem validateAccount_none (h : Heap) :
    ValidateAccount h none = (h, Outcome.error (BankError.ErrAccountNotFound "nil")) := by
  simp [ValidateAccount]

theorem canWithdraw_none (h : Heap) (amount : Int) :
    CanWithdraw h none amount = (h, Outcome.error (BankError.ErrAccountNotFound "nil")) := by
  simp [CanWithdraw, validateAccount_none]

theorem canWithdraw_some (h : Heap) (p : Addr) (amount : Int) :
    CanWithdraw h (some p) amount =
      (h, if amount ≤ 0 then Outcome.error (BankError.ErrInvalidAmount amount)
          else if (h.cell p).Balance < amount then
            Outcome.error
              (BankError.ErrInsufficientFunds (h.cell p).ID (h.cell p).Balance amount)
          else Outcome.ok) := by
  simp only [CanWithdraw, validateAccount_some]
  split_ifs <;> rfl

theorem deposit_none (h : Heap) (amount : Int) (now : Time) :
    Deposit h none amount now = (h, Outcome.error (BankError.ErrAccountNotFound "nil")) := by
  simp [Deposit, validateAccount_none]

theorem deposit_some_nonpos (h : Heap) (p : Addr) {amount : Int} (now : Time)
    (ha : amount ≤ 0) :
    Deposit h (some p) amount now = (h, Outcome.error (BankError.ErrInvalidAmount amount)) := by
  simp [Deposit, validateAccount_some, ha]

theorem deposit_some_pos (h : Heap) (p : Addr) {amount : Int} (now : Time)
    (ha : 0 < amount) :
    Deposit h (some p) amount now =
      (h.set p { h.cell p with
                  Balance := wrapInt64 ((h.cell p).Balance + amount), UpdatedAt := now },
       Outcome.ok) := by
  have hna : ¬ amount ≤ 0 := not_le.mpr ha
  simp [Deposit, validateAccount_some, hna, Heap.set]

theorem withdraw_none (h : Heap) (amount : Int) (now : Time) :
    Withdraw h none amount now = (h, Outcome.error (BankError.ErrAccountNotFound "nil")) := by
  simp [Withdraw, canWithdraw_none]

theorem withdraw_some_nonpos (h : Heap) (p : Addr) {amount : Int} (now : Time)
    (ha : amount ≤ 0) :
    Withdraw h (some p) amount now = (h, Outcome.error (BankError.ErrInvalidAmount amount)) := by
  simp [Withdraw, canWithdraw_some, ha]

theorem withdraw_some_insufficient (h : Heap) (p : Addr) {amount : Int} (now : Time)
    (ha : 0 < amount) (hb : (h.cell p).Balance < amount) :
    Withdraw h (some p) amount now =
      (h, Outcome.error
            (BankError.ErrInsufficientFunds (h.cell p).ID (h.cell p).Balance amount)) := by
  have hna : ¬ amount ≤ 0 := not_le.mpr ha
  simp [Withdraw, canWithdraw_some, hna, hb]

theorem withdraw_some_ok (h : Heap) (p : Addr) {amount : Int} (now : Time)
    (ha : 0 < amount) (hb : amount ≤ (h.cell p).Balance) :
    Withdraw h (some p) amount now =
      (h.set p { h.cell p with
                  Balance := wrapInt64 ((h.cell p).Balance - amount), UpdatedAt := now },
       Outcome.ok) := by
  have hna : ¬ amount ≤ 0 := not_le.mpr ha
  have hnb : ¬ (h.cell p).Balance < amount := not_lt.mpr hb
  simp [Withdraw, canWithdraw_some, hna, hnb, Heap.set]

theorem transfer_none_left (h : Heap) (toAccount : AccountPtr) (amount : Int) (now : Time) :
    Transfer h none toAccount amount now =
      (h, Outcome.error (BankError.ErrAccountNotFound "nil")) := by
  simp [Transfer, validateAccount_none]

theorem transfer_none_right (h : Heap) (f : Addr) (amount : Int) (now : Time) :
    Transfer h (some f) none amount now =
      (h, Outcome.error (BankError.ErrAccountNotFound "nil")) := by
  simp [Transfer, validateAccount_none, validateAccount_some]

theorem transfer_same_id (h : Heap) (f t : Addr) (amount : Int) (now : Time)
    (hid : (h.cell f).ID = (h.cell t).ID) :
    Transfer h (some f) (some t) amount now =
      (h, Outcome.error (BankError.ErrSameAccountTransfer (h.cell f).ID (h.cell t).ID)) := by
  simp [Transfer, validateAccount_some, hid]

theorem transfer_nonpos (h : Heap) (f t : Addr) {amount : Int} (now : Time)
    (hid : (h.cell f).ID ≠ (h.cell t).ID) (ha : amount ≤ 0) :
    Transfer h (some f) (some t) amount now =
      (h, Outcome.error (BankError.ErrInvalidAmount amount)) := by
  simp [Transfer, validateAccount_some, hid, ha]

theorem transfer_insufficient (h : Heap) (f t : Addr) {amount : Int} (now : Time)
    (hid : (h.cell f).ID ≠ (h.cell t).ID) (ha : 0 < amount)
    (hb : (h.cell f).Balance < amount) :
    Transfer h (some f) (some t) amount now =
      (h, Outcome.error
            (BankError.ErrInsufficientFunds (h.cell f).ID (h.cell f).Balance amount)) := by
  have hna : ¬ amount ≤ 0 := not_le.mpr ha
  simp [Transfer, validateAccount_some, canWithdraw_some, hid, hna, hb]

theorem transfer_ok (h : Heap) (f t : Addr) {amount : Int} (now : Time)
    (hid : (h.cell f).ID ≠ (h.cell t).ID) (ha : 0 < amount)
    (hb : amount ≤ (h.cell f).Balance) :
    Transfer h (some f) (some t) amount now =
      ((h.set f { h.cell f with
                    Balance := wrapInt64 ((h.cell f).Balance - amount), UpdatedAt := now }).set t
          { h.cell t with
              Balance := wrapInt64 ((h.cell t).Balance + amount), UpdatedAt := now },
       Outcome.ok) := by
  have hna : ¬ amount ≤ 0 := not_le.mpr ha
  have hnb : ¬ (h.cell f).Balance < amount := not_lt.mpr hb
  have hft : f ≠ t := fun e => hid (by rw [e])
  have htf : t ≠ f := fun e => hft e.symm
  simp [Transfer, validateAccount_some, canWithdraw_some, hid, hna, hnb, Heap.set,
    Function.update_noteq hft, Function.update_noteq htf]
  funext q
  by_cases hqt : q = t
  · subst hqt; simp
  · by_cases hqf : q = f
    · subst hqf; simp [Function.update_noteq hqt]
    · simp [Function.update_noteq hqt, Function.update_noteq hqf]
theorem uuidString_length (u : UUID) : (uuidString u).length = 36 := by
  simp [uuidString, hexByte, String.length]

theorem uuidString_ne_empty (u : UUID) : uuidString u ≠ "" := by
  intro hc
  have hlen := uuidString_length u
  rw [hc] at hlen
  simp at hlen

theorem deposit_error_or_ok (h : Heap) (account : AccountPtr) (amount : Int) :
    (∃ e, ∀ now, Deposit h account amount now = (h, Outcome.error e)) ∨
    (∀ now, (Deposit h account amount now).2 = Outcome.ok) := by
  cases account with
  | none => exact Or.inl ⟨_, fun now => deposit_none h amount now⟩
  | some p =>
    rcases le_or_lt amount 0 with ha | ha
    · exact Or.inl ⟨_, fun now => deposit_some_nonpos h p now ha⟩
    · exact Or.inr fun now => by rw [deposit_some_pos h p now ha]

theorem withdraw_error_or_ok (h : Heap) (account : AccountPtr) (amount : Int) :
    (∃ e, ∀ now, Withdraw h account amount now = (h, Outcome.error e)) ∨
    (∀ now, (Withdraw h account amount now).2 = Outcome.ok) := by
  cases account with
  | none => exact Or.inl ⟨_, fun now => withdraw_none h amount now⟩
  | some p =>
    rcases le_or_lt amount 0 with ha | ha
    · exact Or.inl ⟨_, fun now => withdraw_some_nonpos h p now ha⟩
    · rcases lt_or_le (h.cell p).Balance amount with hb | hb
      · exact Or.inl ⟨_, fun now => withdraw_some_insufficient h p now ha hb⟩
      · exact Or.inr fun now => by rw [withdraw_some_ok h p now ha hb]

theorem transfer_error_or_ok (h : Heap) (fromAccount toAccount : AccountPtr) (amount : Int) :
    (∃ e, ∀ now, Transfer h fromAccount toAccount amount now = (h, Outcome.error e)) ∨
    (∀ now, (Transfer h fromAccount toAccount amount now).2 = Outcome.ok) := by
  cases fromAccount with
  | none => exact Or.inl ⟨_, fun now => transfer_none_left h toAccount amount now⟩
  | some f =>
    cases toAccount with
    | none => exact Or.inl ⟨_, fun now => transfer_none_right h f amount now⟩
    | some t =>
      by_cases hid : (h.cell f).ID = (h.cell t).ID
      · exact Or.inl ⟨_, fun now => transfer_same_id h f t amount now hid⟩
      · rcases le_or_lt amount 0 with ha | ha
        · exact Or.inl ⟨_, fun now => transfer_nonpos h f t now hid ha⟩
        · rcases lt_or_le (h.cell f).Balance amount with hb | hb
          · exact Or.inl ⟨_, fun now => transfer_insufficient h f t now hid ha hb⟩
          · exact Or.inr fun now => by rw [transfer_ok h f t now hid ha hb]

/-! ## Claims about the ledger operations -/

/-- C1 (counterexample): the account at address 3 of the sample heap holds the largest
`int64` balance, which is non-negative; depositing 1 succeeds and leaves it with the
negative balance `-2^63`. -/
theorem deposit_breaks_nonnegativity :
    InInt64 (sampleHeap.cell 3).Balance ∧ 0 ≤ (sampleHeap.cell 3).Balance ∧ InInt64 1 ∧
    (Deposit sampleHeap (some 3) 1 7).2 = Outcome.ok ∧
    ((Deposit sampleHeap (some 3) 1 7).1.cell 3).Balance = -9223372036854775808 ∧
    ((Deposit sampleHeap (some 3) 1 7).1.cell 3).Balance < 0 := by
  decide

/-- C1 (amended): `CreateAccount` only returns accounts with balance `>= 0`; and for
accounts holding non-negative `int64` balances and every amount, the balance is still
`>= 0` after `Withdraw` in every case, after `Deposit` when `balance + amount` does not
exceed `2^63 - 1`, and for both accounts after `Transfer` when a successful transfer has
`to.balance + amount` not exceeding `2^63 - 1`. -/
theorem balance_nonneg_invariant (h : Heap) (req : CreateAccountRequest)
    (rnd : Fin 16 → Fin 256) (f t : Addr) (amount : Int) (now : Time)
    (hf : InInt64 (h.cell f).Balance) (ht : InInt64 (h.cell t).Balance)
    (hf0 : 0 ≤ (h.cell f).Balance) (ht0 : 0 ≤ (h.cell t).Balance) :
    (∀ p, (CreateAccount h req rnd now).2.1 = some p →
        0 ≤ ((CreateAccount h req rnd now).1.cell p).Balance) ∧
    ((h.cell f).Balance + amount < 2 ^ 63 →
        0 ≤ ((Deposit h (some f) amount now).1.cell f).Balance) ∧
    0 ≤ ((Withdraw h (some f) amount now).1.cell f).Balance ∧
    (((Transfer h (some f) (some t) amount now).2 = Outcome.ok →
          (h.cell t).Balance + amount < 2 ^ 63) →
        0 ≤ ((Transfer h (some f) (some t) amount now).1.cell f).Balance ∧
        0 ≤ ((Transfer h (some f) (some t) amount now).1.cell t).Balance) := by
  unfold InInt64 at hf ht
  refine ⟨?_, ?_, ?_, ?_⟩
  · intro p hp
    by_cases hn : req.CustomerName = ""
    · rw [createAccount_empty_name h req rnd now hn] at hp; simp at hp
    · rcases lt_or_le req.InitialBalance 0 with hb | hb
      · rw [createAccount_negative h req rnd now hn hb] at hp; simp at hp
      · rw [createAccount_ok h req rnd now hn hb] at hp ⊢
        simp only [Option.some.injEq] at hp
        subst hp
        simpa using hb
  · intro hno
    rcases le_or_lt amount 0 with ha | ha
    · rw [deposit_some_nonpos h f now ha]; exact hf0
    · rw [deposit_some_pos h f now ha, Heap.cell_set_same]
      have hin : InInt64 ((h.cell f).Balance + amount) := by
        unfold InInt64; omega
      simp only [wrapInt64_eq_self hin]
      omega
  · rcases le_or_lt amount 0 with ha | ha
    · rw [withdraw_some_nonpos h f now ha]; exact hf0
    · rcases lt_or_le (h.cell f).Balance amount with hb | hb
      · rw [withdraw_some_insufficient h f now ha hb]; exact hf0
      · rw [withdraw_some_ok h f now ha hb, Heap.cell_set_same]
        have hin : InInt64 ((h.cell f).Balance - amount) := by
          unfold InInt64; omega
        simp only [wrapInt64_eq_self hin]
        omega
  · intro hno
    by_cases hid : (h.cell f).ID = (h.cell t).ID
    · rw [transfer_same_id h f t amount now hid]; exact ⟨hf0, ht0⟩
    · rcases le_or_lt amount 0 with ha | ha
      · rw [transfer_nonpos h f t now hid ha]; exact ⟨hf0, ht0⟩
      · rcases lt_or_le (h.cell f).Balance amount with hb | hb
        · rw [transfer_insufficient h f t now hid ha hb]; exact ⟨hf0, ht0⟩
        · have hft : f ≠ t := fun e => hid (by rw [e])
          have hok := transfer_ok h f t now hid ha hb
          have hlt := hno (by rw [hok])
          rw [hok, Heap.cell_set_same, Heap.cell_set_other _ _ hft, Heap.cell_set_same]
          have hin1 : InInt64 ((h.cell f).Balance - amount) := by
            unfold InInt64; omega
          have hin2 : InInt64 ((h.cell t).Balance + amount) := by
            unfold InInt64; omega
          simp only [wrapInt64_eq_self hin1, wrapInt64_eq_self hin2]
          omega

/-- C1 (witness): the amended invariant at the sample heap, accounts at addresses 0 and
1, amount 300. -/
theorem balance_nonneg_invariant_witness :
    (InInt64 (sampleHeap.cell 0).Balance ∧ InInt64 (sampleHeap.cell 1).Balance ∧
      0 ≤ (sampleHeap.cell 0).Balance ∧ 0 ≤ (sampleHeap.cell 1).Balance ∧
      (sampleHeap.cell 0).Balance + 300 < 2 ^ 63 ∧
      (sampleHeap.cell 1).Balance + 300 < 2 ^ 63) ∧
    0 ≤ ((Deposit sampleHeap (some 0) 300 7).1.cell 0).Balance ∧
    0 ≤ ((Withdraw sampleHeap (some 0) 300 7).1.cell 0).Balance ∧
    0 ≤ ((Transfer sampleHeap (some 0) (some 1) 300 7).1.cell 0).Balance ∧
    0 ≤ ((Transfer sampleHeap (some 0) (some 1) 300 7).1.cell 1).Balance :=
  have key := balance_nonneg_invariant sampleHeap ⟨"Ravi Kumar", 10000⟩ (fun _ => 171)
    0 1 300 7 (by decide) (by decide) (by decide) (by decide)
  ⟨by decide, key.2.1 (by decide), key.2.2.1, key.2.2.2 (fun _ => by decide)⟩

/-- C2: for a present account holding an `int64` balance and every amount, `Withdraw`
returns no error exactly when `amount > 0` and `amount <= balance`; on success the new
balance is the old balance minus the amount, otherwise the call returns an error value
(it does not panic) and the balance is unchanged. -/
theorem withdraw_succeeds_iff (h : Heap) (p : Addr) (amount : Int) (now : Time)
    (hb : InInt64 (h.cell p).Balance) :
    ((Withdraw h (some p) amount now).2 = Outcome.ok ↔
        0 < amount ∧ amount ≤ (h.cell p).Balance) ∧
    ((Withdraw h (some p) amount now).2 = Outcome.ok →
        ((Withdraw h (some p) amount now).1.cell p).Balance = (h.cell p).Balance - amount) ∧
    ((Withdraw h (some p) amount now).2 ≠ Outcome.ok →
        (∃ e, (Withdraw h (some p) amount now).2 = Outcome.error e) ∧
        ((Withdraw h (some p) amount now).1.cell p).Balance = (h.cell p).Balance) := by
  unfold InInt64 at hb
  rcases le_or_lt amount 0 with ha | ha
  · rw [withdraw_some_nonpos h p now ha]
    refine ⟨⟨fun hc => by simp at hc, fun hc => absurd hc.1 (not_lt.mpr ha)⟩,
      fun hc => by simp at hc, fun _ => ⟨⟨_, rfl⟩, rfl⟩⟩
  · rcases lt_or_le (h.cell p).Balance amount with hlt | hle
    · rw [withdraw_some_insufficient h p now ha hlt]
      refine ⟨⟨fun hc => by simp at hc, fun hc => absurd hc.2 (not_le.mpr hlt)⟩,
        fun hc => by simp at hc, fun _ => ⟨⟨_, rfl⟩, rfl⟩⟩
    · rw [withdraw_some_ok h p now ha hle, Heap.cell_set_same]
      have hin : InInt64 ((h.cell p).Balance - amount) := by
        unfold InInt64; omega
      rw [wrapInt64_eq_self hin]
      exact ⟨⟨fun _ => ⟨ha, hle⟩, fun _ => rfl⟩, fun _ => rfl, fun hc => absurd rfl hc⟩

/-- C2 (witness): withdrawing 300 from the sample account with balance 1000. -/
theorem withdraw_succeeds_iff_witness :
    InInt64 (sampleHeap.cell 0).Balance ∧
    ((Withdraw sampleHeap (some 0) 300 7).2 = Outcome.ok ↔
        (0 : Int) < 300 ∧ 300 ≤ (sampleHeap.cell 0).Balance) ∧
    ((Withdraw sampleHeap (some 0) 300 7).1.cell 0).Balance = 700 :=
  have key := withdraw_succeeds_iff sampleHeap 0 300 7 (by decide)
  ⟨by decide, key.1, (key.2.1 (by decide)).trans (by decide)⟩

/-- C3 (counterexample): a transfer of 1 from the sample account `A` (balance 1000) to
the sample account `Z` (balance `2^63 - 1`) succeeds, yet the receiver's balance becomes
`-2^63`, not its old balance plus 1, and the sum of the two balances changes. -/
theorem transfer_receiver_wraps :
    (sampleHeap.cell 0).ID ≠ (sampleHeap.cell 3).ID ∧
    (0 : Int) < 1 ∧ 1 ≤ (sampleHeap.cell 0).Balance ∧
    (Transfer sampleHeap (some 0) (some 3) 1 7).2 = Outcome.ok ∧
    ((Transfer sampleHeap (some 0) (some 3) 1 7).1.cell 3).Balance ≠
      (sampleHeap.cell 3).Balance + 1 ∧
    ((Transfer sampleHeap (some 0) (some 3) 1 7).1.cell 0).Balance +
        ((Transfer sampleHeap (some 0) (some 3) 1 7).1.cell 3).Balance ≠
      (sampleHeap.cell 0).Balance + (sampleHeap.cell 3).Balance := by
  decide

/-- C3 (amended): for two present accounts with different identifiers holding `int64`
balances and every amount with `0 < amount <= from.balance` and
`to.balance + amount <= 2^63 - 1`, `Transfer` succeeds, the sender's balance decreases by
exactly the amount, the receiver's balance increases by exactly the amount, and the sum
of the two balances is the same before and after. -/
theorem transfer_moves_amount (h : Heap) (f t : Addr) (amount : Int) (now : Time)
    (hid : (h.cell f).ID ≠ (h.cell t).ID)
    (hf : InInt64 (h.cell f).Balance) (ht : InInt64 (h.cell t).Balance)
    (ha : 0 < amount) (hle : amount ≤ (h.cell f).Balance)
    (hno : (h.cell t).Balance + amount ≤ 2 ^ 63 - 1) :
    (Transfer h (some f) (some t) amount now).2 = Outcome.ok ∧
    ((Transfer h (some f) (some t) amount now).1.cell f).Balance =
      (h.cell f).Balance - amount ∧
    ((Transfer h (some f) (some t) amount now).1.cell t).Balance =
      (h.cell t).Balance + amount ∧
    ((Transfer h (some f) (some t) amount now).1.cell f).Balance +
        ((Transfer h (some f) (some t) amount now).1.cell t).Balance =
      (h.cell f).Balance + (h.cell t).Balance := by
  unfold InInt64 at hf ht
  have hft : f ≠ t := fun e => hid (by rw [e])
  have hin1 : InInt64 ((h.cell f).Balance - amount) := by
    unfold InInt64; omega
  have hin2 : InInt64 ((h.cell t).Balance + amount) := by
    unfold InInt64; omega
  rw [transfer_ok h f t now hid ha hle, Heap.cell_set_same, Heap.cell_set_other _ _ hft,
    Heap.cell_set_same]
  rw [wrapInt64_eq_self hin1, wrapInt64_eq_self hin2]
  refine ⟨rfl, rfl, rfl, ?_⟩
  show (h.cell f).Balance - amount + ((h.cell t).Balance + amount) = _
  omega

/-- C3 (witness): transferring 300 from the sample account `A` (1000) to `B` (500). -/
theorem transfer_moves_amount_witness :
    ((sampleHeap.cell 0).ID ≠ (sampleHeap.cell 1).ID ∧
      InInt64 (sampleHeap.cell 0).Balance ∧ InInt64 (sampleHeap.cell 1).Balance ∧
      (0 : Int) < 300 ∧ 300 ≤ (sampleHeap.cell 0).Balance ∧
      (sampleHeap.cell 1).Balance + 300 ≤ 2 ^ 63 - 1) ∧
    (Transfer sampleHeap (some 0) (some 1) 300 7).2 = Outcome.ok ∧
    ((Transfer sampleHeap (some 0) (some 1) 300 7).1.cell 0).Balance = 700 ∧
    ((Transfer sampleHeap (some 0) (some 1) 300 7).1.cell 1).Balance = 800 :=
  have key := transfer_moves_amount sampleHeap 0 1 300 7 (by decide) (by decide)
    (by decide) (by decide) (by decide) (by decide)
  ⟨by decide, key.1, key.2.1.trans (by decide), key.2.2.1.trans (by decide)⟩

/-- C4 (counterexample): depositing 5 into the sample account `Z` (balance `2^63 - 1`, at
address 4) returns no error, but the balance afterwards is `-2^63 + 4`, not the balance
before plus 5. -/
theorem deposit_wraps_around :
    InInt64 (sampleHeap.cell 4).Balance ∧ (0 : Int) < 5 ∧ InInt64 5 ∧
    (Deposit sampleHeap (some 4) 5 7).2 = Outcome.ok ∧
    ((Deposit sampleHeap (some 4) 5 7).1.cell 4).Balance = -9223372036854775804 ∧
    ((Deposit sampleHeap (some 4) 5 7).1.cell 4).Balance ≠ (sampleHeap.cell 4).Balance + 5 := by
  decide

/-- C4 (amended): for a present account holding an `int64` balance and every amount `> 0`,
`Deposit` returns no error, and when `balance + amount` does not exceed `2^63 - 1` the
balance afterwards equals the balance before plus exactly the amount. -/
theorem deposit_adds_amount (h : Heap) (p : Addr) (amount : Int) (now : Time)
    (hb : InInt64 (h.cell p).Balance) (ha : 0 < amount) :
    (Deposit h (some p) amount now).2 = Outcome.ok ∧
    ((h.cell p).Balance + amount ≤ 2 ^ 63 - 1 →
      ((Deposit h (some p) amount now).1.cell p).Balance = (h.cell p).Balance + amount) := by
  unfold InInt64 at hb
  rw [deposit_some_pos h p now ha, Heap.cell_set_same]
  refine ⟨rfl, fun hno => ?_⟩
  have hin : InInt64 ((h.cell p).Balance + amount) := by
    unfold InInt64; omega
  rw [wrapInt64_eq_self hin]

/-- C4 (witness): depositing 500 into the sample account with balance 1000. -/
theorem deposit_adds_amount_witness :
    (InInt64 (sampleHeap.cell 0).Balance ∧ (0 : Int) < 500 ∧
      (sampleHeap.cell 0).Balance + 500 ≤ 2 ^ 63 - 1) ∧
    (Deposit sampleHeap (some 0) 500 7).2 = Outcome.ok ∧
    ((Deposit sampleHeap (some 0) 500 7).1.cell 0).Balance = 1500 :=
  have key := deposit_adds_amount sampleHeap 0 500 7 (by decide) (by decide)
  ⟨by decide, key.1, (key.2 (by decide)).trans (by decide)⟩

/-- C5: failure is atomic.  Whenever `Deposit`, `Withdraw` or `Transfer` returns an
error, the heap (hence every field of every account passed to the call) is exactly as
before, and repeating the same call on the resulting state, at any later time, returns
the same error and again leaves the heap as it was. -/
theorem failed_call_changes_nothing (h : Heap) (account fromAccount toAccount : AccountPtr)
    (amount : Int) (now later : Time) (e : BankError) :
    ((Deposit h account amount now).2 = Outcome.error e →
        (Deposit h account amount now).1 = h ∧
        Deposit (Deposit h account amount now).1 account amount later =
          (h, Outcome.error e)) ∧
    ((Withdraw h account amount now).2 = Outcome.error e →
        (Withdraw h account amount now).1 = h ∧
        Withdraw (Withdraw h account amount now).1 account amount later =
          (h, Outcome.error e)) ∧
    ((Transfer h fromAccount toAccount amount now).2 = Outcome.error e →
        (Transfer h fromAccount toAccount amount now).1 = h ∧
        Transfer (Transfer h fromAccount toAccount amount now).1 fromAccount toAccount
            amount later =
          (h, Outcome.error e)) := by
  refine ⟨?_, ?_, ?_⟩
  · intro herr
    rcases deposit_error_or_ok h account amount with ⟨e1, he1⟩ | hok
    · rw [he1 now] at herr ⊢
      have hee : e1 = e := by simpa using herr
      subst hee
      exact ⟨rfl, he1 later⟩
    · rw [hok now] at herr; simp at herr
  · intro herr
    rcases withdraw_error_or_ok h account amount with ⟨e1, he1⟩ | hok
    · rw [he1 now] at herr ⊢
      have hee : e1 = e := by simpa using herr
      subst hee
      exact ⟨rfl, he1 later⟩
    · rw [hok now] at herr; simp at herr
  · intro herr
    rcases transfer_error_or_ok h fromAccount toAccount amount with ⟨e1, he1⟩ | hok
    · rw [he1 now] at herr ⊢
      have hee : e1 = e := by simpa using herr
      subst hee
      exact ⟨rfl, he1 later⟩
    · rw [hok now] at herr; simp at herr

/-- C5 (witness): withdrawing 1500 from the sample account with balance 1000 fails with
insufficient funds, changes no field of the account, and fails identically when
repeated. -/
theorem failed_call_changes_nothing_witness :
    (Withdraw sampleHeap (some 0) 1500 7).2 =
      Outcome.error (BankError.ErrInsufficientFunds "A" 1000 1500) ∧
    (Withdraw sampleHeap (some 0) 1500 7).1.cell 0 = sampleHeap.cell 0 ∧
    (Withdraw (Withdraw sampleHeap (some 0) 1500 7).1 (some 0) 1500 9).2 =
      Outcome.error (BankError.ErrInsufficientFunds "A" 1000 1500) :=
  have key := (failed_call_changes_nothing sampleHeap (some 0) (some 0) (some 1) 1500 7 9
    (BankError.ErrInsufficientFunds "A" 1000 1500)).2.1 (by decide)
  ⟨by decide, congrArg (fun s => s.cell 0) key.1, congrArg Prod.snd key.2⟩

/-- C6: for two present accounts with equal identifiers (the same record, or two records
carrying one identifier), `Transfer` fails with `ErrSameAccountTransfer` carrying both
identifiers, whatever the amount and the balances, and leaves the heap unchanged. -/
theorem transfer_same_account_fails (h : Heap) (f t : Addr) (amount : Int) (now : Time)
    (hid : (h.cell f).ID = (h.cell t).ID) :
    Transfer h (some f) (some t) amount now =
      (h, Outcome.error (BankError.ErrSameAccountTransfer (h.cell f).ID (h.cell t).ID)) :=
  transfer_same_id h f t amount now hid

/-- C6 (witness): a transfer of 5000, more than the sender holds, between the two sample
records of account `A`. -/
theorem transfer_same_account_fails_witness :
    (sampleHeap.cell 2).ID = (sampleHeap.cell 0).ID ∧
    (sampleHeap.cell 2).Balance < 5000 ∧
    Transfer sampleHeap (some 2) (some 0) 5000 7 =
      (sampleHeap, Outcome.error (BankError.ErrSameAccountTransfer "A" "A")) :=
  ⟨by decide, by decide, transfer_same_account_fails sampleHeap 2 0 5000 7 (by decide)⟩

/-- C7: the result of `Transfer` is decided by the first failing check, in the order:
an absent account reference gives `ErrAccountNotFound`; equal identifiers give
`ErrSameAccountTransfer`; `amount <= 0` gives `ErrInvalidAmount`; `from.balance < amount`
gives `ErrInsufficientFunds`; and `Transfer` succeeds exactly when none of the four
conditions holds. -/
theorem transfer_check_order (h : Heap) (fromAccount toAccount : AccountPtr) (amount : Int)
    (now : Time) :
    (fromAccount = none ∨ toAccount = none →
        Transfer h fromAccount toAccount amount now =
          (h, Outcome.error (BankError.ErrAccountNotFound "nil"))) ∧
    (∀ f t, fromAccount = some f → toAccount = some t →
        ((h.cell f).ID = (h.cell t).ID →
          Transfer h fromAccount toAccount amount now =
            (h, Outcome.error
                  (BankError.ErrSameAccountTransfer (h.cell f).ID (h.cell t).ID))) ∧
        ((h.cell f).ID ≠ (h.cell t).ID → amount ≤ 0 →
          Transfer h fromAccount toAccount amount now =
            (h, Outcome.error (BankError.ErrInvalidAmount amount))) ∧
        ((h.cell f).ID ≠ (h.cell t).ID → ¬ amount ≤ 0 → (h.cell f).Balance < amount →
          Transfer h fromAccount toAccount amount now =
            (h, Outcome.error
                  (BankError.ErrInsufficientFunds (h.cell f).ID (h.cell f).Balance amount)))) ∧
    ((Transfer h fromAccount toAccount amount now).2 = Outcome.ok ↔
        ∃ f t, fromAccount = some f ∧ toAccount = some t ∧
          (h.cell f).ID ≠ (h.cell t).ID ∧ ¬ amount ≤ 0 ∧ ¬ (h.cell f).Balance < amount) := by
  refine ⟨?_, ?_, ?_⟩
  · rintro (hn | hn)
    · subst hn; exact transfer_none_left h toAccount amount now
    · subst hn
      cases fromAccount with
      | none => exact transfer_none_left h none amount now
      | some f => exact transfer_none_right h f amount now
  · intro f t hf ht
    subst hf ht
    exact ⟨fun hid => transfer_same_id h f t amount now hid,
      fun hid ha => transfer_nonpos h f t now hid ha,
      fun hid ha hb => transfer_insufficient h f t now hid (not_le.mp ha) hb⟩
  · cases fromAccount with
    | none => rw [transfer_none_left]; simp
    | some f =>
      cases toAccount with
      | none => rw [transfer_none_right]; simp
      | some t =>
        by_cases hid : (h.cell f).ID = (h.cell t).ID
        · rw [transfer_same_id h f t amount now hid]; simp [hid]
        · rcases le_or_lt amount 0 with ha | ha
          · rw [transfer_nonpos h f t now hid ha]; simp [ha]
          · rcases lt_or_le (h.cell f).Balance amount with hb | hb
            · rw [transfer_insufficient h f t now hid ha hb]; simp [hb]
            · rw [transfer_ok h f t now hid ha hb]
              simp [hid, ha, hb]

/-- C7 (witness): with equal identifiers and a non-positive amount the identifier check
wins; with distinct identifiers and amount 0 the amount check wins; with distinct
identifiers and amount 1500 against balance 1000 the funds check fails. -/
theorem transfer_check_order_witness :
    Transfer sampleHeap none (some 0) 0 7 =
      (sampleHeap, Outcome.error (BankError.ErrAccountNotFound "nil")) ∧
    Transfer sampleHeap (some 0) (some 2) 0 7 =
      (sampleHeap, Outcome.error (BankError.ErrSameAccountTransfer "A" "A")) ∧
    Transfer sampleHeap (some 0) (some 1) 0 7 =
      (sampleHeap, Outcome.error (BankError.ErrInvalidAmount 0)) ∧
    Transfer sampleHeap (some 0) (some 1) 1500 7 =
      (sampleHeap, Outcome.error (BankError.ErrInsufficientFunds "A" 1000 1500)) :=
  ⟨(transfer_check_order sampleHeap none (some 0) 0 7).1 (Or.inl rfl),
   ((transfer_check_order sampleHeap (some 0) (some 2) 0 7).2.1 0 2 rfl rfl).1 (by decide),
   ((transfer_check_order sampleHeap (some 0) (some 1) 0 7).2.1 0 1 rfl rfl).2.1
      (by decide) (by decide),
   ((transfer_check_order sampleHeap (some 0) (some 1) 1500 7).2.1 0 1 rfl rfl).2.2
      (by decide) (by decide) (by decide)⟩

/-- C8: for every non-empty name and every initial balance `>= 0` (zero included),
`CreateAccount` succeeds and returns a pointer to an account whose balance is the
requested initial balance, whose customer name is the requested name, whose identifier
is non-empty, and whose created-at equals its updated-at. -/
theorem createAccount_valid (h : Heap) (req : CreateAccountRequest) (rnd : Fin 16 → Fin 256)
    (now : Time) (hn : req.CustomerName ≠ "") (hb : 0 ≤ req.InitialBalance) :
    ∃ p, (CreateAccount h req rnd now).2 = (some p, Outcome.ok) ∧
      ((CreateAccount h req rnd now).1.cell p).Balance = req.InitialBalance ∧
      ((CreateAccount h req rnd now).1.cell p).CustomerName = req.CustomerName ∧
      ((CreateAccount h req rnd now).1.cell p).ID ≠ "" ∧
      ((CreateAccount h req rnd now).1.cell p).CreatedAt =
        ((CreateAccount h req rnd now).1.cell p).UpdatedAt := by
  rw [createAccount_ok h req rnd now hn hb]
  refine ⟨h.next, rfl, ?_, ?_, ?_, ?_⟩
  · simp
  · simp
  · simpa using uuidString_ne_empty (uuidNew rnd)
  · simp

/-- C8 (witness): creating an account for "Sunil" with initial balance zero. -/
theorem createAccount_valid_witness :
    ((⟨"Sunil", 0⟩ : CreateAccountRequest).CustomerName ≠ "" ∧
      0 ≤ (⟨"Sunil", 0⟩ : CreateAccountRequest).InitialBalance) ∧
    ∃ p, (CreateAccount sampleHeap ⟨"Sunil", 0⟩ (fun _ => 171) 7).2 = (some p, Outcome.ok) ∧
      ((CreateAccount sampleHeap ⟨"Sunil", 0⟩ (fun _ => 171) 7).1.cell p).Balance = 0 ∧
      ((CreateAccount sampleHeap ⟨"Sunil", 0⟩ (fun _ => 171) 7).1.cell p).CustomerName =
        "Sunil" ∧
      ((CreateAccount sampleHeap ⟨"Sunil", 0⟩ (fun _ => 171) 7).1.cell p).ID ≠ "" ∧
      ((CreateAccount sampleHeap ⟨"Sunil", 0⟩ (fun _ => 171) 7).1.cell p).CreatedAt =
        ((CreateAccount sampleHeap ⟨"Sunil", 0⟩ (fun _ => 171) 7).1.cell p).UpdatedAt :=
  ⟨by decide,
   createAccount_valid sampleHeap ⟨"Sunil", 0⟩ (fun _ => 171) 7 (by decide) (by decide)⟩

/-- C9 (counterexample): a request with an empty name and the negative initial balance
`-1000` fails with `ErrInvalidCustomerName`, not with `ErrInvalidInitialBalance`. -/
theorem createAccount_empty_name_wins :
    (⟨"", -1000⟩ : CreateAccountRequest).InitialBalance < 0 ∧
    (CreateAccount sampleHeap ⟨"", -1000⟩ (fun _ => 171) 7).2.2 =
      Outcome.error (BankError.ErrInvalidCustomerName "") ∧
    (CreateAccount sampleHeap ⟨"", -1000⟩ (fun _ => 171) 7).2.2 ≠
      Outcome.error (BankError.ErrInvalidInitialBalance (-1000)) := by
  decide

/-- C9 (amended): for every request, `CreateAccount` fails with `ErrInvalidCustomerName`
if and only if the name is empty, and fails with `ErrInvalidInitialBalance` if and only
if the name is non-empty and the initial balance is `< 0`; with a non-empty name an
initial balance of zero is accepted. -/
theorem createAccount_failure_kinds (h : Heap) (req : CreateAccountRequest)
    (rnd : Fin 16 → Fin 256) (now : Time) :
    ((∃ n, (CreateAccount h req rnd now).2.2 =
          Outcome.error (BankError.ErrInvalidCustomerName n)) ↔ req.CustomerName = "") ∧
    ((∃ b, (CreateAccount h req rnd now).2.2 =
          Outcome.error (BankError.ErrInvalidInitialBalance b)) ↔
        req.CustomerName ≠ "" ∧ req.InitialBalance < 0) ∧
    (req.CustomerName ≠ "" → req.InitialBalance = 0 →
        (CreateAccount h req rnd now).2.2 = Outcome.ok) := by
  by_cases hn : req.CustomerName = ""
  · rw [createAccount_empty_name h req rnd now hn]
    simp [hn]
  · rcases lt_or_le req.InitialBalance 0 with hb | hb
    · rw [createAccount_negative h req rnd now hn hb]
      simp [hn, hb]
      exact ne_of_lt hb
    · rw [createAccount_ok h req rnd now hn hb]
      simp [hn, not_lt.mpr hb]

/-- C9 (witness): the request ("Sunil", 0) is accepted, and ("Priya", -1000) fails with
`ErrInvalidInitialBalance`. -/
theorem createAccount_failure_kinds_witness :
    (CreateAccount sampleHeap ⟨"Sunil", 0⟩ (fun _ => 171) 7).2.2 = Outcome.ok ∧
    ∃ b, (CreateAccount sampleHeap ⟨"Priya", -1000⟩ (fun _ => 171) 7).2.2 =
      Outcome.error (BankError.ErrInvalidInitialBalance b) :=
  ⟨(createAccount_failure_kinds sampleHeap ⟨"Sunil", 0⟩ (fun _ => 171) 7).2.2
      (by decide) rfl,
   (createAccount_failure_kinds sampleHeap ⟨"Priya", -1000⟩ (fun _ => 171) 7).2.1.mpr
      ⟨by decide, by decide⟩⟩

/-- C10: `CanWithdraw` never changes the heap; it fails with `ErrAccountNotFound` when the
account is absent, otherwise with `ErrInvalidAmount` when `amount <= 0`, otherwise with
`ErrInsufficientFunds` when `balance < amount`, and otherwise succeeds, so that
withdrawing exactly the balance is allowed. -/
theorem canWithdraw_spec (h : Heap) (account : AccountPtr) (amount : Int) :
    (CanWithdraw h account amount).1 = h ∧
    (account = none →
        (CanWithdraw h account amount).2 =
          Outcome.error (BankError.ErrAccountNotFound "nil")) ∧
    (∀ p, account = some p →
        (amount ≤ 0 →
          (CanWithdraw h account amount).2 =
            Outcome.error (BankError.ErrInvalidAmount amount)) ∧
        (¬ amount ≤ 0 → (h.cell p).Balance < amount →
          (CanWithdraw h account amount).2 =
            Outcome.error
              (BankError.ErrInsufficientFunds (h.cell p).ID (h.cell p).Balance amount)) ∧
        (¬ amount ≤ 0 → ¬ (h.cell p).Balance < amount →
          (CanWithdraw h account amount).2 = Outcome.ok) ∧
        (0 < amount → amount = (h.cell p).Balance →
          (CanWithdraw h account amount).2 = Outcome.ok)) := by
  cases account with
  | none =>
    rw [canWithdraw_none]
    exact ⟨rfl, fun _ => rfl, fun p hp => by simp at hp⟩
  | some q =>
    rw [canWithdraw_some]
    refine ⟨rfl, fun hc => by simp at hc, fun p hp => ?_⟩
    have hpq : q = p := by simpa using hp
    subst hpq
    refine ⟨fun ha => by simp [ha], fun ha hb => by simp [ha, hb],
      fun ha hb => by simp [ha, hb], fun ha hb => ?_⟩
    have hna : ¬ amount ≤ 0 := not_le.mpr ha
    have hnb : ¬ (h.cell q).Balance < amount := by rw [hb]; exact lt_irrefl _
    simp [hna, hnb]

/-- C10 (witness): on the sample account with balance 1000, an amount of 1000 is allowed,
1001 is refused for insufficient funds and 0 as an invalid amount. -/
theorem canWithdraw_spec_witness :
    (CanWithdraw sampleHeap (some 0) 1000).2 = Outcome.ok ∧
    (CanWithdraw sampleHeap (some 0) 1001).2 =
      Outcome.error (BankError.ErrInsufficientFunds "A" 1000 1001) ∧
    (CanWithdraw sampleHeap (some 0) 0).2 = Outcome.error (BankError.ErrInvalidAmount 0) ∧
    (CanWithdraw sampleHeap none 1000).2 = Outcome.error (BankError.ErrAccountNotFound "nil") :=
  ⟨((canWithdraw_spec sampleHeap (some 0) 1000).2.2 0 rfl).2.2.2 (by decide) (by decide),
   ((canWithdraw_spec sampleHeap (some 0) 1001).2.2 0 rfl).2.1 (by decide) (by decide),
   ((canWithdraw_spec sampleHeap (some 0) 0).2.2 0 rfl).1 (by decide),
   (canWithdraw_spec sampleHeap none 1000).2.1 rfl⟩

/-! ## Basic facts about the store -/

theorem Store.createAccount_stored (s : Store) (h : Heap) (p : Addr)
    (hin : (h.cell p).ID ∈ s.accounts) :
    s.CreateAccount h (some p) =
      (s, StoreOutcome.error
            (GoError.errorf ("account with ID " ++ (h.cell p).ID ++ " already exists"))) := by
  have hsome : (s.accounts.lookup (h.cell p).ID).isSome = true := AList.lookup_isSome.mpr hin
  simp [Store.CreateAccount, hsome]

theorem Store.createAccount_fresh (s : Store) (h : Heap) (p : Addr)
    (hnot : (h.cell p).ID ∉ s.accounts) :
    s.CreateAccount h (some p) =
      ({ s with accounts := s.accounts.insert (h.cell p).ID (some p) }, StoreOutcome.ok) := by
  have hnone : s.accounts.lookup (h.cell p).ID = none := AList.lookup_eq_none.mpr hnot
  simp [Store.CreateAccount, hnone]

theorem Store.updateAccount_missing (s : Store) (h : Heap) (p : Addr)
    (hnot : (h.cell p).ID ∉ s.accounts) :
    s.UpdateAccount h (some p) =
      (s, StoreOutcome.error (GoError.typed (BankError.ErrAccountNotFound (h.cell p).ID))) := by
  have hnone : s.accounts.lookup (h.cell p).ID = none := AList.lookup_eq_none.mpr hnot
  simp [Store.UpdateAccount, hnone]

theorem Store.updateAccount_stored (s : Store) (h : Heap) (p : Addr)
    (hin : (h.cell p).ID ∈ s.accounts) :
    s.UpdateAccount h (some p) =
      ({ s with accounts := s.accounts.insert (h.cell p).ID (some p) }, StoreOutcome.ok) := by
  have hsome : (s.accounts.lookup (h.cell p).ID).isSome = true := AList.lookup_isSome.mpr hin
  simp [Store.UpdateAccount, hsome]

theorem Store.getAccount_missing (s : Store) (id : String) (hnot : id ∉ s.accounts) :
    s.GetAccount id =
      (s, none, StoreOutcome.error (GoError.typed (BankError.ErrAccountNotFound id))) := by
  have hnone : s.accounts.lookup id = none := AList.lookup_eq_none.mpr hnot
  simp [Store.GetAccount, hnone]

theorem Store.getAccount_stored (s : Store) (id : String) (acc : AccountPtr)
    (hacc : s.accounts.lookup id = some acc) :
    s.GetAccount id = (s, acc, StoreOutcome.ok) := by
  simp [Store.GetAccount, hacc]

theorem Store.getTransaction_missing (s : Store) (id : String) (hnot : id ∉ s.transactions) :
    s.GetTransaction id =
      (s, none, StoreOutcome.error (GoError.errorf ("transaction not found: " ++ id))) := by
  have hnone : s.transactions.lookup id = none := AList.lookup_eq_none.mpr hnot
  simp [Store.GetTransaction, hnone]

/-- The message built for a creation collision determines the identifier it was built
from. -/
theorem duplicate_message_injective (id₁ id₂ : String)
    (heq : "account with ID " ++ id₁ ++ " already exists" =
      "account with ID " ++ id₂ ++ " already exists") : id₁ = id₂ := by
  have hdata := congrArg String.data heq
  simp only [String.data_append, List.append_assoc] at hdata
  have h1 := List.append_cancel_left hdata
  have h2 := List.append_cancel_right h1
  exact String.ext h2

/-! ## Claims about deposits and about the store -/

/-- C11: for a present account `Deposit` fails if and only if `amount <= 0`, and the
failure is `ErrInvalidAmount` carrying that amount; for an absent (`nil`) account
`Deposit` fails with `ErrAccountNotFound` whatever the amount. -/
theorem deposit_fails_iff (h : Heap) (p : Addr) (amount : Int) (now : Time) :
    ((Deposit h (some p) amount now).2 ≠ Outcome.ok ↔ amount ≤ 0) ∧
    (amount ≤ 0 →
      (Deposit h (some p) amount now).2 = Outcome.error (BankError.ErrInvalidAmount amount)) ∧
    (Deposit h none amount now).2 = Outcome.error (BankError.ErrAccountNotFound "nil") := by
  refine ⟨?_, fun ha => by rw [deposit_some_nonpos h p now ha], by rw [deposit_none]⟩
  rcases le_or_lt amount 0 with ha | ha
  · rw [deposit_some_nonpos h p now ha]
    simp [ha]
  · rw [deposit_some_pos h p now ha]
    simp [not_le.mpr ha]

/-- C11 (witness): depositing 0 and -100 into the sample account fails with the offending
amount, depositing 500 succeeds. -/
theorem deposit_fails_iff_witness :
    (Deposit sampleHeap (some 0) 0 7).2 = Outcome.error (BankError.ErrInvalidAmount 0) ∧
    (Deposit sampleHeap (some 0) (-100) 7).2 =
      Outcome.error (BankError.ErrInvalidAmount (-100)) ∧
    ¬ (Deposit sampleHeap (some 0) 500 7).2 ≠ Outcome.ok :=
  ⟨(deposit_fails_iff sampleHeap 0 0 7).2.1 (by decide),
   (deposit_fails_iff sampleHeap 0 (-100) 7).2.1 (by decide),
   fun hne => absurd ((deposit_fails_iff sampleHeap 0 500 7).1.mp hne) (by decide)⟩

/-- C12 (counterexample): the sample store holds account `A`; creating the second record
of `A` fails with the string error `account with ID A already exists` built by
`fmt.Errorf`, which is not a typed error value of `pkg/errors`: there is no
`DuplicateAccount` kind. -/
theorem store_create_duplicate_untyped :
    (sampleHeap.cell 2).ID ∈ sampleStore.accounts ∧
    (sampleStore.CreateAccount sampleHeap (some 2)).2 =
      StoreOutcome.error (GoError.errorf "account with ID A already exists") ∧
    ¬ ∃ e, (sampleStore.CreateAccount sampleHeap (some 2)).2 =
      StoreOutcome.error (GoError.typed e) := by
  refine ⟨by decide, by decide, ?_⟩
  rintro ⟨e, he⟩
  have hval : (sampleStore.CreateAccount sampleHeap (some 2)).2 =
      StoreOutcome.error (GoError.errorf "account with ID A already exists") := by decide
  rw [hval] at he
  simp at he

/-- C12 (amended): `Store.CreateAccount` fails if and only if an account with the record's
identifier is already stored; the failure is never a typed error of `pkg/errors` but the
string error `account with ID <id> already exists`, whose message determines the
identifier, and the store is left unchanged; otherwise the call succeeds, the record is
stored under its identifier as a new entry, and the transactions are untouched. -/
theorem store_create_spec (s : Store) (h : Heap) (p : Addr) :
    ((s.CreateAccount h (some p)).2 ≠ StoreOutcome.ok ↔ (h.cell p).ID ∈ s.accounts) ∧
    ((h.cell p).ID ∈ s.accounts →
      s.CreateAccount h (some p) =
        (s, StoreOutcome.error
              (GoError.errorf ("account with ID " ++ (h.cell p).ID ++ " already exists"))) ∧
      ∀ id, "account with ID " ++ id ++ " already exists" =
          "account with ID " ++ (h.cell p).ID ++ " already exists" → id = (h.cell p).ID) ∧
    ((h.cell p).ID ∉ s.accounts →
      (s.CreateAccount h (some p)).2 = StoreOutcome.ok ∧
      (s.CreateAccount h (some p)).1.accounts.lookup (h.cell p).ID = some (some p) ∧
      (s.CreateAccount h (some p)).1.accounts.entries =
        ⟨(h.cell p).ID, some p⟩ :: s.accounts.entries ∧
      (s.CreateAccount h (some p)).1.transactions = s.transactions) ∧
    (∀ e, (s.CreateAccount h (some p)).2 ≠ StoreOutcome.error (GoError.typed e)) := by
  refine ⟨?_, ?_, ?_, ?_⟩
  · by_cases hin : (h.cell p).ID ∈ s.accounts
    · rw [Store.createAccount_stored s h p hin]
      simp [hin]
    · rw [Store.createAccount_fresh s h p hin]
      simp [hin]
  · intro hin
    exact ⟨Store.createAccount_stored s h p hin,
      fun id hid => duplicate_message_injective id _ hid⟩
  · intro hnot
    rw [Store.createAccount_fresh s h p hnot]
    exact ⟨rfl, AList.lookup_insert _, AList.insert_entries_of_neg hnot, rfl⟩
  · intro e
    by_cases hin : (h.cell p).ID ∈ s.accounts
    · rw [Store.createAccount_stored s h p hin]
      simp
    · rw [Store.createAccount_fresh s h p hin]
      simp

/-- C12 (witness): in the sample store, which holds `A` and `B`, creating the second
record of `A` fails and creating `Z` succeeds. -/
theorem store_create_spec_witness :
    ((sampleHeap.cell 2).ID ∈ sampleStore.accounts ∧
      (sampleHeap.cell 3).ID ∉ sampleStore.accounts) ∧
    sampleStore.CreateAccount sampleHeap (some 2) =
      (sampleStore,
       StoreOutcome.error (GoError.errorf "account with ID A already exists")) ∧
    (sampleStore.CreateAccount sampleHeap (some 3)).2 = StoreOutcome.ok ∧
    (sampleStore.CreateAccount sampleHeap (some 3)).1.accounts.lookup "Z" = some (some 3) :=
  ⟨by decide,
   ((store_create_spec sampleStore sampleHeap 2).2.1 (by decide)).1,
   ((store_create_spec sampleStore sampleHeap 3).2.2.1 (by decide)).1,
   ((store_create_spec sampleStore sampleHeap 3).2.2.1 (by decide)).2.1⟩

/-- C13: for every store that holds no account with the identifier of `acc`, `Create(acc)`
succeeds and `Get(acc.ID)` on the resulting store succeeds and returns the pointer `acc`
itself, hence a record equal to `acc` in every field. -/
theorem get_after_create (s : Store) (h : Heap) (p : Addr)
    (hnot : (h.cell p).ID ∉ s.accounts) :
    (s.CreateAccount h (some p)).2 = StoreOutcome.ok ∧
    ((s.CreateAccount h (some p)).1.GetAccount (h.cell p).ID).2 =
      (some p, StoreOutcome.ok) ∧
    ∃ q, ((s.CreateAccount h (some p)).1.GetAccount (h.cell p).ID).2.1 = some q ∧
      h.cell q = h.cell p := by
  rw [Store.createAccount_fresh s h p hnot]
  have hget := Store.getAccount_stored
    { s with accounts := s.accounts.insert (h.cell p).ID (some p) } (h.cell p).ID (some p)
    (AList.lookup_insert _)
  rw [hget]
  exact ⟨rfl, rfl, p, rfl, rfl⟩

/-- C13 (witness): creating the sample account `Z` in the sample store and reading it
back. -/
theorem get_after_create_witness :
    (sampleHeap.cell 3).ID ∉ sampleStore.accounts ∧
    ((sampleStore.CreateAccount sampleHeap (some 3)).1.GetAccount "Z").2 =
      (some 3, StoreOutcome.ok) :=
  ⟨by decide, (get_after_create sampleStore sampleHeap 3 (by decide)).2.1⟩

/-- C14: for every store and identifier, `Get` succeeds if and only if an account is
stored under the identifier, and then returns the stored pointer; otherwise it fails with
`ErrAccountNotFound` carrying exactly the requested identifier; `Get` never changes the
store. -/
theorem store_get_spec (s : Store) (id : String) :
    ((s.GetAccount id).2.2 = StoreOutcome.ok ↔ id ∈ s.accounts) ∧
    (∀ acc, s.accounts.lookup id = some acc → (s.GetAccount id).2 = (acc, StoreOutcome.ok)) ∧
    (id ∉ s.accounts →
      (s.GetAccount id).2 =
        (none, StoreOutcome.error (GoError.typed (BankError.ErrAccountNotFound id)))) ∧
    (s.GetAccount id).1 = s := by
  refine ⟨?_, fun acc hacc => by rw [Store.getAccount_stored s id acc hacc],
    fun hnot => by rw [Store.getAccount_missing s id hnot], ?_⟩
  · by_cases hin : id ∈ s.accounts
    · obtain ⟨acc, hacc⟩ := Option.isSome_iff_exists.mp (AList.lookup_isSome.mpr hin)
      rw [Store.getAccount_stored s id acc hacc]
      simp [hin]
    · rw [Store.getAccount_missing s id hin]
      simp [hin]
  · by_cases hin : id ∈ s.accounts
    · obtain ⟨acc, hacc⟩ := Option.isSome_iff_exists.mp (AList.lookup_isSome.mpr hin)
      rw [Store.getAccount_stored s id acc hacc]
    · rw [Store.getAccount_missing s id hin]

/-- C14 (witness): in the sample store `Get` finds `A` and misses `non-existent`. -/
theorem store_get_spec_witness :
    (sampleStore.GetAccount "A").2 = (some 0, StoreOutcome.ok) ∧
    (sampleStore.GetAccount "non-existent").2 =
      (none,
       StoreOutcome.error (GoError.typed (BankError.ErrAccountNotFound "non-existent"))) :=
  ⟨(store_get_spec sampleStore "A").2.1 (some 0) (by decide),
   (store_get_spec sampleStore "non-existent").2.2.1 (by decide)⟩

/-- C15: `Update` with a record whose identifier is not stored fails with
`ErrAccountNotFound` carrying that identifier and leaves the store unchanged; in
particular the identifier is still not stored afterwards. -/
theorem update_missing_fails (s : Store) (h : Heap) (p : Addr)
    (hnot : (h.cell p).ID ∉ s.accounts) :
    s.UpdateAccount h (some p) =
      (s, StoreOutcome.error (GoError.typed (BankError.ErrAccountNotFound (h.cell p).ID))) ∧
    (h.cell p).ID ∉ (s.UpdateAccount h (some p)).1.accounts := by
  rw [Store.updateAccount_missing s h p hnot]
  exact ⟨rfl, hnot⟩

/-- C15 (witness): updating the sample account `Z`, which the sample store does not
hold. -/
theorem update_missing_fails_witness :
    (sampleHeap.cell 3).ID ∉ sampleStore.accounts ∧
    sampleStore.UpdateAccount sampleHeap (some 3) =
      (sampleStore, StoreOutcome.error (GoError.typed (BankError.ErrAccountNotFound "Z"))) :=
  ⟨by decide, (update_missing_fails sampleStore sampleHeap 3 (by decide)).1⟩

/-- C16: `Update` with a record whose identifier is stored succeeds, and `Get` on that
identifier afterwards returns exactly the given pointer, whatever was stored before; a
second `Update` for the same identifier succeeds as well, `Get` then returns the later
pointer, and the store is the one the later `Update` alone would have produced. -/
theorem update_overwrites (s : Store) (h h2 : Heap) (p q : Addr)
    (hin : (h.cell p).ID ∈ s.accounts) (hq : (h2.cell q).ID = (h.cell p).ID) :
    (s.UpdateAccount h (some p)).2 = StoreOutcome.ok ∧
    ((s.UpdateAccount h (some p)).1.GetAccount (h.cell p).ID).2 =
      (some p, StoreOutcome.ok) ∧
    ((s.UpdateAccount h (some p)).1.UpdateAccount h2 (some q)).2 = StoreOutcome.ok ∧
    (((s.UpdateAccount h (some p)).1.UpdateAccount h2 (some q)).1.GetAccount
        (h.cell p).ID).2 = (some q, StoreOutcome.ok) ∧
    ((s.UpdateAccount h (some p)).1.UpdateAccount h2 (some q)).1 =
      (s.UpdateAccount h2 (some q)).1 := by
  have hin2 : (h2.cell q).ID ∈ s.accounts := by rw [hq]; exact hin
  have hin1 : (h2.cell q).ID ∈
      ({ s with accounts := s.accounts.insert (h.cell p).ID (some p) } : Store).accounts := by
    rw [hq]; exact (AList.mem_insert _).mpr (Or.inl rfl)
  rw [Store.updateAccount_stored s h p hin, Store.updateAccount_stored _ h2 q hin1,
    Store.updateAccount_stored s h2 q hin2]
  refine ⟨rfl, ?_, rfl, ?_, ?_⟩
  · rw [Store.getAccount_stored _ _ (some p) (AList.lookup_insert _)]
  · rw [Store.getAccount_stored _ _ (some q) (by rw [hq]; exact AList.lookup_insert _)]
  · simp only [hq, AList.insert_insert]

/-- C16 (witness): the sample store holds `A` at address 0; updating it with the second
record of `A` (address 2) and then again with the first (address 0). -/
theorem update_overwrites_witness :
    ((sampleHeap.cell 2).ID ∈ sampleStore.accounts ∧
      (sampleHeap.cell 0).ID = (sampleHeap.cell 2).ID) ∧
    (sampleStore.GetAccount "A").2 = (some 0, StoreOutcome.ok) ∧
    ((sampleStore.UpdateAccount sampleHeap (some 2)).1.GetAccount "A").2 =
      (some 2, StoreOutcome.ok) ∧
    (((sampleStore.UpdateAccount sampleHeap (some 2)).1.UpdateAccount sampleHeap
        (some 0)).1.GetAccount "A").2 = (some 0, StoreOutcome.ok) :=
  have key := update_overwrites sampleStore sampleHeap sampleHeap 2 0 (by decide) (by decide)
  ⟨by decide, by decide, key.2.1, key.2.2.2.1⟩

/-- C17: for every store state, after `Clear` the account map and the transaction map
have no entry, `GetAllAccounts` and `GetAllTransactions` return empty slices, and
`GetAccount` and `GetTransaction` fail for every identifier. -/
theorem clear_empties (s : Store) :
    s.Clear.accounts.entries = [] ∧ s.Clear.transactions.entries = [] ∧
    s.Clear.GetAllAccounts.2 = [] ∧ s.Clear.GetAllTransactions.2 = [] ∧
    (∀ id, (s.Clear.GetAccount id).2 =
      (none, StoreOutcome.error (GoError.typed (BankError.ErrAccountNotFound id)))) ∧
    (∀ id, (s.Clear.GetTransaction id).2 =
      (none, StoreOutcome.error (GoError.errorf ("transaction not found: " ++ id)))) := by
  refine ⟨rfl, rfl, rfl, rfl, fun id => ?_, fun id => ?_⟩
  · rw [Store.getAccount_missing _ id (AList.not_mem_empty id)]
  · rw [Store.getTransaction_missing _ id (AList.not_mem_empty id)]

/-- C18: `GetAllAccounts` leaves the store unchanged and returns one pointer per stored
identifier: its result is, entry by entry, what `Get` returns for the stored identifiers,
which are pairwise distinct, so its length is the number of stored identifiers; a
pointer is in the result exactly when `Get` returns it for some identifier; and when
every stored pointer is non-nil and stored under the identifier of its record, no
pointer occurs twice. -/
theorem getAllAccounts_spec (s : Store) (h : Heap) :
    s.GetAllAccounts.1 = s ∧
    s.GetAllAccounts.2 = s.accounts.keys.map (fun id => (s.GetAccount id).2.1) ∧
    s.accounts.keys.Nodup ∧
    s.GetAllAccounts.2.length = s.accounts.keys.length ∧
    (∀ acc, acc ∈ s.GetAllAccounts.2 ↔ ∃ id, (s.GetAccount id).2 = (acc, StoreOutcome.ok)) ∧
    ((∀ id acc, s.accounts.lookup id = some acc → ∃ p, acc = some p ∧ (h.cell p).ID = id) →
      s.GetAllAccounts.2.Nodup) := by
  have hentry : ∀ e ∈ s.accounts.entries, s.GetAccount e.1 = (s, e.2, StoreOutcome.ok) := by
    intro e he
    have hl : s.accounts.lookup e.1 = some e.2 :=
      AList.mem_lookup_iff.mpr (by cases e; exact he)
    exact Store.getAccount_stored s e.1 e.2 hl
  refine ⟨rfl, ?_, s.accounts.keys_nodup, by simp [Store.GetAllAccounts, AList.keys, List.keys], ?_, ?_⟩
  · simp only [Store.GetAllAccounts, AList.keys, List.keys, List.map_map]
    apply List.map_congr_left
    intro e he
    simp [hentry e he]
  · intro acc
    constructor
    · intro hmem
      simp only [Store.GetAllAccounts, List.mem_map] at hmem
      obtain ⟨e, he, heq⟩ := hmem
      exact ⟨e.1, by rw [hentry e he, heq]⟩
    · rintro ⟨id, hid⟩
      cases hl : s.accounts.lookup id with
      | none =>
        rw [Store.getAccount_missing s id (AList.lookup_eq_none.mp hl)] at hid
        simp at hid
      | some b =>
        rw [Store.getAccount_stored s id b hl] at hid
        have hb : b = acc := by simpa using hid
        subst hb
        simp only [Store.GetAllAccounts, List.mem_map]
        exact ⟨⟨id, b⟩, AList.mem_lookup_iff.mp hl, rfl⟩
  · intro hkey
    simp only [Store.GetAllAccounts]
    refine List.Nodup.map_on ?_ s.accounts.nodupKeys.nodup
    intro x hx y hy hxy
    have hlx : s.accounts.lookup x.1 = some x.2 :=
      AList.mem_lookup_iff.mpr (by cases x; exact hx)
    have hly : s.accounts.lookup y.1 = some y.2 :=
      AList.mem_lookup_iff.mpr (by cases y; exact hy)
    obtain ⟨px, hpx, hidx⟩ := hkey x.1 x.2 hlx
    obtain ⟨py, hpy, hidy⟩ := hkey y.1 y.2 hly
    have hpp : px = py := by
      have hsome : some px = some py := by rw [← hpx, ← hpy]; exact hxy
      exact Option.some.inj hsome
    have hfst : x.1 = y.1 := by rw [← hidx, ← hidy, hpp]
    exact s.accounts.nodupKeys.eq_of_fst_eq hx hy hfst

/-- C18 (witness): the sample store holds `A` at address 0 and `B` at address 1, each
under the identifier of its record; its listing has these two pointers, once each. -/
theorem getAllAccounts_spec_witness :
    (∀ id acc, sampleStore.accounts.lookup id = some acc →
      ∃ p, acc = some p ∧ (sampleHeap.cell p).ID = id) ∧
    sampleStore.GetAllAccounts.2.Nodup ∧
    sampleStore.GetAllAccounts.2.length = 2 ∧
    some 0 ∈ sampleStore.GetAllAccounts.2 ∧ some 1 ∈ sampleStore.GetAllAccounts.2 :=
  have hkey : ∀ id acc, sampleStore.accounts.lookup id = some acc →
      ∃ p, acc = some p ∧ (sampleHeap.cell p).ID = id := by
    intro id acc hl
    have hmem : (⟨id, acc⟩ : Sigma fun _ : String => AccountPtr) ∈
        sampleStore.accounts.entries := AList.mem_lookup_iff.mp hl
    have hent : sampleStore.accounts.entries = [⟨"B", some 1⟩, ⟨"A", some 0⟩] := by decide
    rw [hent] at hmem
    simp only [List.mem_cons, Sigma.mk.inj_iff, heq_eq_eq, List.mem_singleton,
      List.not_mem_nil, or_false] at hmem
    rcases hmem with ⟨h1, h2⟩ | ⟨h1, h2⟩
    · exact ⟨1, h2, by rw [h1]; decide⟩
    · exact ⟨0, h2, by rw [h1]; decide⟩
  have key := getAllAccounts_spec sampleStore sampleHeap
  ⟨hkey, key.2.2.2.2.2 hkey, key.2.2.2.1.trans (by decide),
   (key.2.2.2.2.1 (some 0)).mpr ⟨"A", by decide⟩,
   (key.2.2.2.2.1 (some 1)).mpr ⟨"B", by decide⟩⟩

/-- Creating, one after the other, records whose identifiers are pairwise distinct and
not yet stored: every call succeeds and each record becomes a new entry. -/
theorem createAll_fresh (h : Heap) :
    ∀ (accs : List Addr) (s : Store),
      (accs.map fun p => (h.cell p).ID).Nodup →
      (∀ p ∈ accs, (h.cell p).ID ∉ s.accounts) →
      (createAll s h (accs.map some)).2 = accs.map (fun _ => StoreOutcome.ok) ∧
      (createAll s h (accs.map some)).1.accounts.entries =
        (accs.reverse.map fun p =>
          (⟨(h.cell p).ID, some p⟩ : Sigma fun _ : String => AccountPtr)) ++
          s.accounts.entries := by
  intro accs
  induction accs with
  | nil => intro s _ _; simp [createAll]
  | cons p rest ih =>
    intro s hd hnew
    have hp : (h.cell p).ID ∉ s.accounts := hnew p (List.mem_cons_self _ _)
    rw [List.map_cons, List.nodup_cons] at hd
    have hrest : ∀ q ∈ rest, (h.cell q).ID ∉
        ({ s with accounts := s.accounts.insert (h.cell p).ID (some p) } : Store).accounts := by
      intro q hq hmem
      rcases (AList.mem_insert _).mp hmem with heq | hin
      · exact hd.1 (List.mem_map.mpr ⟨q, hq, heq⟩)
      · exact hnew q (List.mem_cons_of_mem _ hq) hin
    obtain ⟨ih1, ih2⟩ := ih { s with accounts := s.accounts.insert (h.cell p).ID (some p) }
      hd.2 hrest
    simp only [List.map_cons, createAll, Store.createAccount_fresh s h p hp]
    refine ⟨by rw [ih1], ?_⟩
    rw [ih2]
    show _ ++ (s.accounts.insert (h.cell p).ID (some p)).entries = _
    rw [AList.insert_entries_of_neg hp]
    simp

/-- C19: `Create` calls for accounts with pairwise distinct identifiers, applied to an
empty store one atomic call after the other in any order, all succeed, and
`GetAllAccounts` afterwards returns exactly those accounts: each of them once and
nothing else. -/
theorem creates_in_any_order (h : Heap) (accs order : List Addr)
    (hd : (accs.map fun p => (h.cell p).ID).Nodup) (hperm : order.Perm accs) :
    (createAll NewStore h (order.map some)).2 = order.map (fun _ => StoreOutcome.ok) ∧
    ((createAll NewStore h (order.map some)).1.GetAllAccounts.2).Perm (accs.map some) ∧
    ((createAll NewStore h (order.map some)).1.GetAllAccounts.2).length = accs.length ∧
    ((createAll NewStore h (order.map some)).1.GetAllAccounts.2).Nodup := by
  have hdo : (order.map fun p => (h.cell p).ID).Nodup :=
    (List.Perm.nodup_iff (hperm.map _)).mpr hd
  have hne : ∀ p ∈ order, (h.cell p).ID ∉ NewStore.accounts :=
    fun p _ => AList.not_mem_empty _
  obtain ⟨hout, hent⟩ := createAll_fresh h order NewStore hdo hne
  have hlist : (createAll NewStore h (order.map some)).1.GetAllAccounts.2 =
      order.reverse.map some := by
    show List.map (fun e => e.2) (createAll NewStore h (order.map some)).1.accounts.entries = _
    rw [hent]
    have hempty : NewStore.accounts.entries = [] := rfl
    rw [hempty, List.append_nil, List.map_map]
    rfl
  have hpermAll : (order.reverse.map some).Perm (accs.map some) :=
    ((List.reverse_perm order).trans hperm).map _
  have hnodup : (accs.map some).Nodup :=
    (hd.of_map _).map (Option.some_injective _)
  rw [hlist]
  exact ⟨hout, hpermAll, by rw [hpermAll.length_eq, List.length_map],
    (List.Perm.nodup_iff hpermAll).mpr hnodup⟩

/-- C19 (witness): the sample accounts `A`, `B` and `Z` created in the order `B`, `Z`,
`A`. -/
theorem creates_in_any_order_witness :
    (([0, 1, 3] : List Addr).map fun p => (sampleHeap.cell p).ID).Nodup ∧
    ([1, 3, 0] : List Addr).Perm [0, 1, 3] ∧
    (createAll NewStore sampleHeap [some 1, some 3, some 0]).2 =
      [StoreOutcome.ok, StoreOutcome.ok, StoreOutcome.ok] ∧
    ((createAll NewStore sampleHeap [some 1, some 3, some 0]).1.GetAllAccounts.2).Perm
      [some 0, some 1, some 3] :=
  have key := creates_in_any_order sampleHeap [0, 1, 3] [1, 3, 0] (by decide) (by decide)
  ⟨by decide, by decide, key.1, key.2.1⟩

/-- The two field writes of a ledger operation leave the other fields of every record
as they were. -/
theorem Heap.set_frame (h : Heap) (p q : Addr) (balance : Int) (updated : Time) :
    ((h.set p { h.cell p with Balance := balance, UpdatedAt := updated }).cell q).ID =
      (h.cell q).ID ∧
    ((h.set p { h.cell p with Balance := balance, UpdatedAt := updated }).cell q).CustomerName =
      (h.cell q).CustomerName ∧
    ((h.set p { h.cell p with Balance := balance, UpdatedAt := updated }).cell q).CreatedAt =
      (h.cell q).CreatedAt := by
  by_cases hqp : q = p
  · subst hqp
    rw [Heap.cell_set_same]
    exact ⟨rfl, rfl, rfl⟩
  · rw [Heap.cell_set_other _ _ hqp]
    exact ⟨rfl, rfl, rfl⟩

/-- C20: `Deposit`, `Withdraw` and `Transfer` never change the identifier, the customer
name or the created-at timestamp of any record, in particular of the accounts passed to
them, whether the call succeeds or fails. -/
theorem immutable_fields_preserved (h : Heap) (account fromAccount toAccount : AccountPtr)
    (amount : Int) (now : Time) (q : Addr) :
    (((Deposit h account amount now).1.cell q).ID = (h.cell q).ID ∧
      ((Deposit h account amount now).1.cell q).CustomerName = (h.cell q).CustomerName ∧
      ((Deposit h account amount now).1.cell q).CreatedAt = (h.cell q).CreatedAt) ∧
    (((Withdraw h account amount now).1.cell q).ID = (h.cell q).ID ∧
      ((Withdraw h account amount now).1.cell q).CustomerName = (h.cell q).CustomerName ∧
      ((Withdraw h account amount now).1.cell q).CreatedAt = (h.cell q).CreatedAt) ∧
    (((Transfer h fromAccount toAccount amount now).1.cell q).ID = (h.cell q).ID ∧
      ((Transfer h fromAccount toAccount amount now).1.cell q).CustomerName =
        (h.cell q).CustomerName ∧
      ((Transfer h fromAccount toAccount amount now).1.cell q).CreatedAt =
        (h.cell q).CreatedAt) := by
  refine ⟨?_, ?_, ?_⟩
  · cases account with
    | none => rw [deposit_none]; exact ⟨rfl, rfl, rfl⟩
    | some p =>
      rcases le_or_lt amount 0 with ha | ha
      · rw [deposit_some_nonpos h p now ha]; exact ⟨rfl, rfl, rfl⟩
      · rw [deposit_some_pos h p now ha]; exact Heap.set_frame h p q _ _
  · cases account with
    | none => rw [withdraw_none]; exact ⟨rfl, rfl, rfl⟩
    | some p =>
      rcases le_or_lt amount 0 with ha | ha
      · rw [withdraw_some_nonpos h p now ha]; exact ⟨rfl, rfl, rfl⟩
      · rcases lt_or_le (h.cell p).Balance amount with hb | hb
        · rw [withdraw_some_insufficient h p now ha hb]; exact ⟨rfl, rfl, rfl⟩
        · rw [withdraw_some_ok h p now ha hb]; exact Heap.set_frame h p q _ _
  · cases fromAccount with
    | none => rw [transfer_none_left]; exact ⟨rfl, rfl, rfl⟩
    | some f =>
      cases toAccount with
      | none => rw [transfer_none_right]; exact ⟨rfl, rfl, rfl⟩
      | some t =>
        by_cases hid : (h.cell f).ID = (h.cell t).ID
        · rw [transfer_same_id h f t amount now hid]; exact ⟨rfl, rfl, rfl⟩
        · rcases le_or_lt amount 0 with ha | ha
          · rw [transfer_nonpos h f t now hid ha]; exact ⟨rfl, rfl, rfl⟩
          · rcases lt_or_le (h.cell f).Balance amount with hb | hb
            · rw [transfer_insufficient h f t now hid ha hb]; exact ⟨rfl, rfl, rfl⟩
            · rw [transfer_ok h f t now hid ha hb]
              have hft : f ≠ t := fun e => hid (by rw [e])
              have h1 := Heap.set_frame h f q (wrapInt64 ((h.cell f).Balance - amount)) now
              have h2 := Heap.set_frame
                (h.set f { h.cell f with
                  Balance := wrapInt64 ((h.cell f).Balance - amount), UpdatedAt := now })
                t q (wrapInt64 ((h.cell t).Balance + amount)) now
              rw [Heap.cell_set_other _ _ hft.symm] at h2
              exact ⟨h2.1.trans h1.1, h2.2.1.trans h1.2.1, h2.2.2.trans h1.2.2⟩

/-! ## Claims about timestamps, error contents and 64-bit arithmetic -/

/-- C21: after a successful `Deposit` or `Withdraw` the account's updated-at is the time
read by the call, and after a successful `Transfer` the updated-at of both accounts is
that one time, so the two are equal. -/
theorem updated_at_refreshed (h : Heap) (p f t : Addr) (amount : Int) (now : Time) :
    ((Deposit h (some p) amount now).2 = Outcome.ok →
      ((Deposit h (some p) amount now).1.cell p).UpdatedAt = now) ∧
    ((Withdraw h (some p) amount now).2 = Outcome.ok →
      ((Withdraw h (some p) amount now).1.cell p).UpdatedAt = now) ∧
    ((Transfer h (some f) (some t) amount now).2 = Outcome.ok →
      ((Transfer h (some f) (some t) amount now).1.cell f).UpdatedAt = now ∧
      ((Transfer h (some f) (some t) amount now).1.cell t).UpdatedAt = now ∧
      ((Transfer h (some f) (some t) amount now).1.cell f).UpdatedAt =
        ((Transfer h (some f) (some t) amount now).1.cell t).UpdatedAt) := by
  refine ⟨?_, ?_, ?_⟩
  · rcases le_or_lt amount 0 with ha | ha
    · rw [deposit_some_nonpos h p now ha]; intro hc; simp at hc
    · rw [deposit_some_pos h p now ha, Heap.cell_set_same]; intro _; rfl
  · rcases le_or_lt amount 0 with ha | ha
    · rw [withdraw_some_nonpos h p now ha]; intro hc; simp at hc
    · rcases lt_or_le (h.cell p).Balance amount with hb | hb
      · rw [withdraw_some_insufficient h p now ha hb]; intro hc; simp at hc
      · rw [withdraw_some_ok h p now ha hb, Heap.cell_set_same]; intro _; rfl
  · by_cases hid : (h.cell f).ID = (h.cell t).ID
    · rw [transfer_same_id h f t amount now hid]; intro hc; simp at hc
    · rcases le_or_lt amount 0 with ha | ha
      · rw [transfer_nonpos h f t now hid ha]; intro hc; simp at hc
      · rcases lt_or_le (h.cell f).Balance amount with hb | hb
        · rw [transfer_insufficient h f t now hid ha hb]; intro hc; simp at hc
        · have hft : f ≠ t := fun e => hid (by rw [e])
          rw [transfer_ok h f t now hid ha hb, Heap.cell_set_same,
            Heap.cell_set_other _ _ hft, Heap.cell_set_same]
          intro _
          exact ⟨rfl, rfl, rfl⟩

/-- C21 (witness): a transfer of 300 between the sample accounts `A` and `B` at time 7. -/
theorem updated_at_refreshed_witness :
    (Transfer sampleHeap (some 0) (some 1) 300 7).2 = Outcome.ok ∧
    (sampleHeap.cell 0).UpdatedAt = 0 ∧
    ((Transfer sampleHeap (some 0) (some 1) 300 7).1.cell 0).UpdatedAt = 7 ∧
    ((Transfer sampleHeap (some 0) (some 1) 300 7).1.cell 1).UpdatedAt = 7 :=
  have key := (updated_at_refreshed sampleHeap 0 0 1 300 7).2.2 (by decide)
  ⟨by decide, by decide, key.1, key.2.1⟩

/-- C22 (counterexample): a transfer of 5000 between the two sample records of account
`A`, from the one with balance 40; the amount is positive and exceeds the sender's
balance, yet the call fails with `ErrSameAccountTransfer`, not `ErrInsufficientFunds`. -/
theorem transfer_insufficient_not_raised :
    (0 : Int) < 5000 ∧ (sampleHeap.cell 2).Balance < 5000 ∧
    (Transfer sampleHeap (some 2) (some 0) 5000 7).2 =
      Outcome.error (BankError.ErrSameAccountTransfer "A" "A") ∧
    (Transfer sampleHeap (some 2) (some 0) 5000 7).2 ≠
      Outcome.error (BankError.ErrInsufficientFunds "A" 40 5000) := by
  decide

/-- C22 (amended): `CanWithdraw` and `Withdraw` fail with `ErrInsufficientFunds` exactly
when the account is present, `amount > 0` and `balance < amount`; `Transfer` does so
exactly when both accounts are present, their identifiers differ, `amount > 0` and
`from.balance < amount`; in each case the error carries the identifier of the debited
account, its balance at the time of the call, and the requested amount. -/
theorem insufficient_funds_spec (h : Heap) (account fromAccount toAccount : AccountPtr)
    (amount : Int) (now : Time) (i : String) (b a : Int) :
    ((CanWithdraw h account amount).2 = Outcome.error (BankError.ErrInsufficientFunds i b a) ↔
      ∃ p, account = some p ∧ 0 < amount ∧ (h.cell p).Balance < amount ∧
        i = (h.cell p).ID ∧ b = (h.cell p).Balance ∧ a = amount) ∧
    ((Withdraw h account amount now).2 =
        Outcome.error (BankError.ErrInsufficientFunds i b a) ↔
      ∃ p, account = some p ∧ 0 < amount ∧ (h.cell p).Balance < amount ∧
        i = (h.cell p).ID ∧ b = (h.cell p).Balance ∧ a = amount) ∧
    ((Transfer h fromAccount toAccount amount now).2 =
        Outcome.error (BankError.ErrInsufficientFunds i b a) ↔
      ∃ f t, fromAccount = some f ∧ toAccount = some t ∧ (h.cell f).ID ≠ (h.cell t).ID ∧
        0 < amount ∧ (h.cell f).Balance < amount ∧
        i = (h.cell f).ID ∧ b = (h.cell f).Balance ∧ a = amount) := by
  refine ⟨?_, ?_, ?_⟩
  · cases account with
    | none => rw [canWithdraw_none]; simp
    | some p =>
      rw [canWithdraw_some]
      rcases le_or_lt amount 0 with ha | ha
      · simp [ha, not_lt.mpr ha]
      · rcases lt_or_le (h.cell p).Balance amount with hb | hb
        · simp only [not_le.mpr ha, hb, if_false, if_true, Outcome.error.injEq,
            BankError.ErrInsufficientFunds.injEq, Option.some.injEq, exists_eq_left', ha,
            true_and]
          constructor
          · rintro ⟨h1, h2, h3⟩; exact ⟨h1.symm, h2.symm, h3.symm⟩
          · rintro ⟨h1, h2, h3⟩; exact ⟨h1.symm, h2.symm, h3.symm⟩
        · simp [not_le.mpr ha, not_lt.mpr hb]
  · cases account with
    | none => rw [withdraw_none]; simp
    | some p =>
      rcases le_or_lt amount 0 with ha | ha
      · rw [withdraw_some_nonpos h p now ha]; simp [not_lt.mpr ha]
      · rcases lt_or_le (h.cell p).Balance amount with hb | hb
        · rw [withdraw_some_insufficient h p now ha hb]
          simp only [Outcome.error.injEq, BankError.ErrInsufficientFunds.injEq,
            Option.some.injEq, exists_eq_left', ha, hb, true_and]
          constructor
          · rintro ⟨h1, h2, h3⟩; exact ⟨h1.symm, h2.symm, h3.symm⟩
          · rintro ⟨h1, h2, h3⟩; exact ⟨h1.symm, h2.symm, h3.symm⟩
        · rw [withdraw_some_ok h p now ha hb]; simp [not_lt.mpr hb]
  · cases fromAccount with
    | none => rw [transfer_none_left]; simp
    | some f =>
      cases toAccount with
      | none => rw [transfer_none_right]; simp
      | some t =>
        by_cases hid : (h.cell f).ID = (h.cell t).ID
        · rw [transfer_same_id h f t amount now hid]; simp [hid]
        · rcases le_or_lt amount 0 with ha | ha
          · rw [transfer_nonpos h f t now hid ha]; simp [not_lt.mpr ha]
          · rcases lt_or_le (h.cell f).Balance amount with hb | hb
            · rw [transfer_insufficient h f t now hid ha hb]
              constructor
              · intro hc
                have he : BankError.ErrInsufficientFunds (h.cell f).ID (h.cell f).Balance
                    amount = BankError.ErrInsufficientFunds i b a := Outcome.error.inj hc
                injection he with h1 h2 h3
                exact ⟨f, t, rfl, rfl, hid, ha, hb, h1.symm, h2.symm, h3.symm⟩
              · rintro ⟨f1, t1, hf, _, _, _, _, h1, h2, h3⟩
                have hff : f = f1 := Option.some.inj hf
                subst hff
                subst h1 h2 h3
                rfl
            · rw [transfer_ok h f t now hid ha hb]; simp [not_lt.mpr hb]

/-- C22 (witness): withdrawing 1500 from the sample account `A` with balance 1000, and
transferring 1500 from it to `B`. -/
theorem insufficient_funds_spec_witness :
    (Withdraw sampleHeap (some 0) 1500 7).2 =
      Outcome.error (BankError.ErrInsufficientFunds "A" 1000 1500) ∧
    (Transfer sampleHeap (some 0) (some 1) 1500 7).2 =
      Outcome.error (BankError.ErrInsufficientFunds "A" 1000 1500) :=
  have key := insufficient_funds_spec sampleHeap (some 0) (some 0) (some 1) 1500 7
    "A" 1000 1500
  ⟨key.2.1.mpr ⟨0, rfl, by decide, by decide, by decide, by decide, rfl⟩,
   key.2.2.mpr ⟨0, 1, rfl, rfl, by decide, by decide, by decide, by decide, by decide, rfl⟩⟩

theorem Store.storeTransaction_stored (s : Store) (th : TxHeap) (p : Addr)
    (hin : (th.cell p).ID ∈ s.transactions) :
    s.StoreTransaction th (some p) =
      (s, StoreOutcome.error
            (GoError.errorf ("transaction with ID " ++ (th.cell p).ID ++ " already exists"))) := by
  have hsome : (s.transactions.lookup (th.cell p).ID).isSome = true :=
    AList.lookup_isSome.mpr hin
  simp [Store.StoreTransaction, hsome]

theorem Store.storeTransaction_fresh (s : Store) (th : TxHeap) (p : Addr)
    (hnot : (th.cell p).ID ∉ s.transactions) :
    s.StoreTransaction th (some p) =
      ({ s with transactions := s.transactions.insert (th.cell p).ID (some p) },
       StoreOutcome.ok) := by
  have hnone : s.transactions.lookup (th.cell p).ID = none := AList.lookup_eq_none.mpr hnot
  simp [Store.StoreTransaction, hnone]

theorem Store.getTransaction_stored (s : Store) (id : String) (tx : TransactionPtr)
    (htx : s.transactions.lookup id = some tx) :
    s.GetTransaction id = (s, tx, StoreOutcome.ok) := by
  simp [Store.GetTransaction, htx]

/-- C23: storing a transaction whose identifier is not yet stored succeeds, and
`GetTransaction` on that identifier then returns the same transaction pointer; storing
under an identifier already stored fails and leaves the store, hence the stored
transaction, unchanged; `GetTransaction` on an identifier that is not stored fails; and
`GetAllTransactions` returns, entry by entry, what `GetTransaction` returns for the
pairwise distinct stored identifiers. -/
theorem transaction_round_trip (s : Store) (th : TxHeap) (p : Addr) (id : String) :
    ((th.cell p).ID ∉ s.transactions →
      (s.StoreTransaction th (some p)).2 = StoreOutcome.ok ∧
      ((s.StoreTransaction th (some p)).1.GetTransaction (th.cell p).ID).2 =
        (some p, StoreOutcome.ok)) ∧
    ((th.cell p).ID ∈ s.transactions →
      (∃ e, (s.StoreTransaction th (some p)).2 = StoreOutcome.error e) ∧
      (s.StoreTransaction th (some p)).1 = s ∧
      ((s.StoreTransaction th (some p)).1.GetTransaction (th.cell p).ID).2 =
        (s.GetTransaction (th.cell p).ID).2) ∧
    (id ∉ s.transactions →
      (s.GetTransaction id).2 =
        (none, StoreOutcome.error (GoError.errorf ("transaction not found: " ++ id)))) ∧
    s.GetAllTransactions.2 = s.transactions.keys.map (fun k => (s.GetTransaction k).2.1) ∧
    s.transactions.keys.Nodup ∧
    s.GetAllTransactions.2.length = s.transactions.keys.length := by
  refine ⟨?_, ?_, fun hnot => by rw [Store.getTransaction_missing s id hnot], ?_,
    s.transactions.keys_nodup, by simp [Store.GetAllTransactions, AList.keys, List.keys]⟩
  · intro hnot
    rw [Store.storeTransaction_fresh s th p hnot]
    refine ⟨rfl, ?_⟩
    rw [Store.getTransaction_stored _ _ (some p) (AList.lookup_insert _)]
  · intro hin
    rw [Store.storeTransaction_stored s th p hin]
    exact ⟨⟨_, rfl⟩, rfl, rfl⟩
  · simp only [Store.GetAllTransactions, AList.keys, List.keys, List.map_map]
    apply List.map_congr_left
    intro e he
    have hl : s.transactions.lookup e.1 = some e.2 :=
      AList.mem_lookup_iff.mpr (by cases e; exact he)
    simp [Store.getTransaction_stored s e.1 e.2 hl]

/-- C23 (witness): the sample store holds the transaction `T1`; storing `T2` succeeds and
reads back, storing `T1` again fails, and `non-existent` is not found. -/
theorem transaction_round_trip_witness :
    ((sampleTxHeap.cell 1).ID ∉ sampleStore.transactions ∧
      (sampleTxHeap.cell 0).ID ∈ sampleStore.transactions) ∧
    ((sampleStore.StoreTransaction sampleTxHeap (some 1)).1.GetTransaction "T2").2 =
      (some 1, StoreOutcome.ok) ∧
    (sampleStore.StoreTransaction sampleTxHeap (some 0)).1 = sampleStore ∧
    (sampleStore.GetTransaction "non-existent").2 =
      (none, StoreOutcome.error (GoError.errorf "transaction not found: non-existent")) :=
  ⟨by decide,
   ((transaction_round_trip sampleStore sampleTxHeap 1 "x").1 (by decide)).2,
   ((transaction_round_trip sampleStore sampleTxHeap 0 "x").2.1 (by decide)).2.1,
   (transaction_round_trip sampleStore sampleTxHeap 0 "non-existent").2.2.1 (by decide)⟩

/-- C24: for every account pointer, present or absent, and every amount, `Withdraw`
ends with exactly the outcome of `CanWithdraw` on the same inputs (the same error, or
success for both); when that outcome is success the balance of the account becomes the
wrapped difference `balance - amount` and every other record is untouched; and for
`int64` balances `Withdraw` coincides with its specification `WithdrawSpec`, in which the
difference is exact. -/
theorem withdraw_refines_canWithdraw (h : Heap) (account : AccountPtr) (amount : Int)
    (now : Time) :
    (Withdraw h account amount now).2 = (CanWithdraw h account amount).2 ∧
    ((CanWithdraw h account amount).2 = Outcome.ok →
      ∃ p, account = some p ∧
        ((Withdraw h account amount now).1.cell p).Balance =
          wrapInt64 ((h.cell p).Balance - amount) ∧
        ∀ q, q ≠ p → (Withdraw h account amount now).1.cell q = h.cell q) ∧
    ((∀ p, account = some p → InInt64 (h.cell p).Balance) →
      Withdraw h account amount now = WithdrawSpec h account amount now) := by
  cases account with
  | none =>
    rw [withdraw_none, canWithdraw_none]
    refine ⟨rfl, fun hc => by simp at hc, fun _ => ?_⟩
    simp [WithdrawSpec, canWithdraw_none]
  | some p =>
    rcases le_or_lt amount 0 with ha | ha
    · rw [withdraw_some_nonpos h p now ha, canWithdraw_some]
      refine ⟨by simp [ha], fun hc => by simp [ha] at hc, fun _ => ?_⟩
      simp [WithdrawSpec, canWithdraw_some, ha]
    · rcases lt_or_le (h.cell p).Balance amount with hb | hb
      · rw [withdraw_some_insufficient h p now ha hb, canWithdraw_some]
        refine ⟨by simp [not_le.mpr ha, hb], fun hc => by simp [not_le.mpr ha, hb] at hc,
          fun _ => ?_⟩
        simp [WithdrawSpec, canWithdraw_some, not_le.mpr ha, hb]
      · rw [withdraw_some_ok h p now ha hb, canWithdraw_some]
        refine ⟨by simp [not_le.mpr ha, not_lt.mpr hb], fun _ => ⟨p, rfl, ?_, ?_⟩,
          fun hin => ?_⟩
        · rw [Heap.cell_set_same]
        · intro q hq
          rw [Heap.cell_set_other _ _ hq]
        · have hb64 := hin p rfl
          have hin2 : InInt64 ((h.cell p).Balance - amount) := by
            unfold InInt64 at hb64 ⊢; omega
          simp [WithdrawSpec, canWithdraw_some, not_le.mpr ha, not_lt.mpr hb,
            wrapInt64_eq_self hin2]

/-- C24 (witness): withdrawing 300 from the sample account with balance 1000 agrees
with the specification and leaves 700. -/
theorem withdraw_refines_canWithdraw_witness :
    (CanWithdraw sampleHeap (some 0) 300).2 = Outcome.ok ∧
    (∀ p, (some 0 : AccountPtr) = some p → InInt64 (sampleHeap.cell p).Balance) ∧
    Withdraw sampleHeap (some 0) 300 7 = WithdrawSpec sampleHeap (some 0) 300 7 ∧
    ((WithdrawSpec sampleHeap (some 0) 300 7).1.cell 0).Balance = 700 :=
  have hin : ∀ p, (some 0 : AccountPtr) = some p → InInt64 (sampleHeap.cell p).Balance := by
    intro p hp
    have h0 : 0 = p := Option.some.inj hp
    subst h0
    decide
  ⟨by decide, hin, (withdraw_refines_canWithdraw sampleHeap (some 0) 300 7).2.2 hin,
   by decide⟩

theorem wrapInt64_emod (x : Int) : wrapInt64 x % 2 ^ 64 = x % 2 ^ 64 := by
  unfold wrapInt64
  omega

/-- C27: for every `int64` balance and every amount, whenever `Withdraw` succeeds, and
likewise for the sender of a successful `Transfer`, the new balance is the exact integer
`old balance - amount` and satisfies `0 <= new balance < old balance`; the balance is not
assumed non-negative beforehand. -/
theorem debit_is_exact (h : Heap) (p f t : Addr) (amount : Int) (now : Time)
    (hp : InInt64 (h.cell p).Balance) (hf : InInt64 (h.cell f).Balance) :
    ((Withdraw h (some p) amount now).2 = Outcome.ok →
      ((Withdraw h (some p) amount now).1.cell p).Balance = (h.cell p).Balance - amount ∧
      0 ≤ ((Withdraw h (some p) amount now).1.cell p).Balance ∧
      ((Withdraw h (some p) amount now).1.cell p).Balance < (h.cell p).Balance) ∧
    ((Transfer h (some f) (some t) amount now).2 = Outcome.ok →
      ((Transfer h (some f) (some t) amount now).1.cell f).Balance =
        (h.cell f).Balance - amount ∧
      0 ≤ ((Transfer h (some f) (some t) amount now).1.cell f).Balance ∧
      ((Transfer h (some f) (some t) amount now).1.cell f).Balance < (h.cell f).Balance) := by
  unfold InInt64 at hp hf
  refine ⟨?_, ?_⟩
  · rcases le_or_lt amount 0 with ha | ha
    · rw [withdraw_some_nonpos h p now ha]; intro hc; simp at hc
    · rcases lt_or_le (h.cell p).Balance amount with hb | hb
      · rw [withdraw_some_insufficient h p now ha hb]; intro hc; simp at hc
      · rw [withdraw_some_ok h p now ha hb, Heap.cell_set_same]
        have hin : InInt64 ((h.cell p).Balance - amount) := by
          unfold InInt64; omega
        rw [wrapInt64_eq_self hin]
        intro _
        refine ⟨rfl, ?_, ?_⟩
        · show 0 ≤ (h.cell p).Balance - amount
          omega
        · show (h.cell p).Balance - amount < (h.cell p).Balance
          omega
  · by_cases hid : (h.cell f).ID = (h.cell t).ID
    · rw [transfer_same_id h f t amount now hid]; intro hc; simp at hc
    · rcases le_or_lt amount 0 with ha | ha
      · rw [transfer_nonpos h f t now hid ha]; intro hc; simp at hc
      · rcases lt_or_le (h.cell f).Balance amount with hb | hb
        · rw [transfer_insufficient h f t now hid ha hb]; intro hc; simp at hc
        · have hft : f ≠ t := fun e => hid (by rw [e])
          rw [transfer_ok h f t now hid ha hb, Heap.cell_set_other _ _ hft,
            Heap.cell_set_same]
          have hin : InInt64 ((h.cell f).Balance - amount) := by
            unfold InInt64; omega
          rw [wrapInt64_eq_self hin]
          intro _
          refine ⟨rfl, ?_, ?_⟩
          · show 0 ≤ (h.cell f).Balance - amount
            omega
          · show (h.cell f).Balance - amount < (h.cell f).Balance
            omega

/-- C27 (witness): withdrawing the whole balance 1000 of the sample account `A` leaves
exactly 0. -/
theorem debit_is_exact_witness :
    (InInt64 (sampleHeap.cell 0).Balance ∧
      (Withdraw sampleHeap (some 0) 1000 7).2 = Outcome.ok) ∧
    ((Withdraw sampleHeap (some 0) 1000 7).1.cell 0).Balance = 0 ∧
    ((Withdraw sampleHeap (some 0) 1000 7).1.cell 0).Balance < (sampleHeap.cell 0).Balance :=
  have key := (debit_is_exact sampleHeap 0 0 1 1000 7 (by decide) (by decide)).1 (by decide)
  ⟨by decide, key.1.trans (by decide), key.2.2⟩

/-- C28: for every successful `Transfer` the sum `from.balance + to.balance` is the same
before and after modulo `2^64`; and for `int64` balances with
`to.balance + amount <= 2^63 - 1` it is the same as an exact integer, and the receiver's
balance stays non-negative when it was non-negative. -/
theorem transfer_conserves_sum (h : Heap) (f t : Addr) (amount : Int) (now : Time)
    (hok : (Transfer h (some f) (some t) amount now).2 = Outcome.ok) :
    (((Transfer h (some f) (some t) amount now).1.cell f).Balance +
        ((Transfer h (some f) (some t) amount now).1.cell t).Balance) % 2 ^ 64 =
      ((h.cell f).Balance + (h.cell t).Balance) % 2 ^ 64 ∧
    (InInt64 (h.cell f).Balance → InInt64 (h.cell t).Balance →
      (h.cell t).Balance + amount ≤ 2 ^ 63 - 1 →
      ((Transfer h (some f) (some t) amount now).1.cell f).Balance +
          ((Transfer h (some f) (some t) amount now).1.cell t).Balance =
        (h.cell f).Balance + (h.cell t).Balance ∧
      (0 ≤ (h.cell t).Balance →
        0 ≤ ((Transfer h (some f) (some t) amount now).1.cell t).Balance)) := by
  by_cases hid : (h.cell f).ID = (h.cell t).ID
  · rw [transfer_same_id h f t amount now hid] at hok; simp at hok
  · rcases le_or_lt amount 0 with ha | ha
    · rw [transfer_nonpos h f t now hid ha] at hok; simp at hok
    · rcases lt_or_le (h.cell f).Balance amount with hb | hb
      · rw [transfer_insufficient h f t now hid ha hb] at hok; simp at hok
      · have hft : f ≠ t := fun e => hid (by rw [e])
        rw [transfer_ok h f t now hid ha hb, Heap.cell_set_other _ _ hft,
          Heap.cell_set_same, Heap.cell_set_same]
        refine ⟨?_, ?_⟩
        · show (wrapInt64 ((h.cell f).Balance - amount) +
              wrapInt64 ((h.cell t).Balance + amount)) % 2 ^ 64 = _
          have h1 := wrapInt64_emod ((h.cell f).Balance - amount)
          have h2 := wrapInt64_emod ((h.cell t).Balance + amount)
          omega
        · intro hf64 ht64 hno
          unfold InInt64 at hf64 ht64
          have hin1 : InInt64 ((h.cell f).Balance - amount) := by
            unfold InInt64; omega
          have hin2 : InInt64 ((h.cell t).Balance + amount) := by
            unfold InInt64; omega
          rw [wrapInt64_eq_self hin1, wrapInt64_eq_self hin2]
          refine ⟨?_, fun ht0 => ?_⟩
          · show (h.cell f).Balance - amount + ((h.cell t).Balance + amount) = _
            omega
          · show 0 ≤ (h.cell t).Balance + amount
            omega

/-- C28 (witness): a transfer of 1 from the sample account `A` to the sample account `Z`,
whose balance is `2^63 - 1`: the receiver wraps to `-2^63`, and the sum is preserved
modulo `2^64`. -/
theorem transfer_conserves_sum_witness :
    (Transfer sampleHeap (some 0) (some 3) 1 7).2 = Outcome.ok ∧
    ((Transfer sampleHeap (some 0) (some 3) 1 7).1.cell 3).Balance = -9223372036854775808 ∧
    (((Transfer sampleHeap (some 0) (some 3) 1 7).1.cell 0).Balance +
        ((Transfer sampleHeap (some 0) (some 3) 1 7).1.cell 3).Balance) % 2 ^ 64 =
      ((sampleHeap.cell 0).Balance + (sampleHeap.cell 3).Balance) % 2 ^ 64 :=
  ⟨by decide, by decide,
   (transfer_conserves_sum sampleHeap 0 3 1 7 (by decide)).1⟩

/-- C29: on a present account with an `int64` balance and for every amount `> 0`: when
`balance >= 0` and `balance + amount <= 2^63 - 1`, `Deposit(amount)` followed by
`Withdraw(amount)` both succeed and restore the original balance; and when
`amount <= balance`, `Withdraw(amount)` followed by `Deposit(amount)` both succeed and
restore the original balance. -/
theorem deposit_withdraw_inverse (h : Heap) (p : Addr) (amount : Int) (now later : Time)
    (hb : InInt64 (h.cell p).Balance) (ha : 0 < amount) :
    (0 ≤ (h.cell p).Balance → (h.cell p).Balance + amount ≤ 2 ^ 63 - 1 →
      (Deposit h (some p) amount now).2 = Outcome.ok ∧
      (Withdraw (Deposit h (some p) amount now).1 (some p) amount later).2 = Outcome.ok ∧
      ((Withdraw (Deposit h (some p) amount now).1 (some p) amount later).1.cell p).Balance =
        (h.cell p).Balance) ∧
    (amount ≤ (h.cell p).Balance →
      (Withdraw h (some p) amount now).2 = Outcome.ok ∧
      (Deposit (Withdraw h (some p) amount now).1 (some p) amount later).2 = Outcome.ok ∧
      ((Deposit (Withdraw h (some p) amount now).1 (some p) amount later).1.cell p).Balance =
        (h.cell p).Balance) := by
  unfold InInt64 at hb
  refine ⟨?_, ?_⟩
  · intro h0 hno
    have hin : InInt64 ((h.cell p).Balance + amount) := by
      unfold InInt64; omega
    have hd1 : (Deposit h (some p) amount now).2 = Outcome.ok := by
      rw [deposit_some_pos h p now ha]
    have hd2 : ((Deposit h (some p) amount now).1.cell p).Balance =
        (h.cell p).Balance + amount := by
      rw [deposit_some_pos h p now ha, Heap.cell_set_same]
      exact wrapInt64_eq_self hin
    have hle : amount ≤ ((Deposit h (some p) amount now).1.cell p).Balance := by
      rw [hd2]; omega
    have hw := withdraw_some_ok (Deposit h (some p) amount now).1 p later ha hle
    refine ⟨hd1, by rw [hw], ?_⟩
    rw [hw, Heap.cell_set_same]
    show wrapInt64 (((Deposit h (some p) amount now).1.cell p).Balance - amount) = _
    rw [hd2]
    have hin2 : InInt64 ((h.cell p).Balance + amount - amount) := by
      unfold InInt64; omega
    rw [wrapInt64_eq_self hin2]
    omega
  · intro hle
    have hin : InInt64 ((h.cell p).Balance - amount) := by
      unfold InInt64; omega
    have hw1 : (Withdraw h (some p) amount now).2 = Outcome.ok := by
      rw [withdraw_some_ok h p now ha hle]
    have hw2 : ((Withdraw h (some p) amount now).1.cell p).Balance =
        (h.cell p).Balance - amount := by
      rw [withdraw_some_ok h p now ha hle, Heap.cell_set_same]
      exact wrapInt64_eq_self hin
    have hd := deposit_some_pos (Withdraw h (some p) amount now).1 p later ha
    refine ⟨hw1, by rw [hd], ?_⟩
    rw [hd, Heap.cell_set_same]
    show wrapInt64 (((Withdraw h (some p) amount now).1.cell p).Balance + amount) = _
    rw [hw2]
    have hin2 : InInt64 ((h.cell p).Balance - amount + amount) := by
      unfold InInt64; omega
    rw [wrapInt64_eq_self hin2]
    omega

/-- C29 (witness): on the sample account with balance 1000, depositing and then
withdrawing 500, and withdrawing and then depositing 1000. -/
theorem deposit_withdraw_inverse_witness :
    (InInt64 (sampleHeap.cell 0).Balance ∧ 0 ≤ (sampleHeap.cell 0).Balance ∧
      (sampleHeap.cell 0).Balance + 500 ≤ 2 ^ 63 - 1 ∧ 1000 ≤ (sampleHeap.cell 0).Balance) ∧
    ((Withdraw (Deposit sampleHeap (some 0) 500 7).1 (some 0) 500 9).1.cell 0).Balance =
      (sampleHeap.cell 0).Balance ∧
    ((Deposit (Withdraw sampleHeap (some 0) 1000 7).1 (some 0) 1000 9).1.cell 0).Balance =
      (sampleHeap.cell 0).Balance :=
  ⟨by decide,
   ((deposit_withdraw_inverse sampleHeap 0 500 7 9 (by decide) (by decide)).1
      (by decide) (by decide)).2.2,
   ((deposit_withdraw_inverse sampleHeap 0 1000 7 9 (by decide) (by decide)).2
      (by decide)).2.2⟩

/-! ## Claims about the store and the ledger together -/

theorem Store.getAccount_eq_ok (s : Store) (id : String) (acc : AccountPtr)
    (hget : (s.GetAccount id).2 = (acc, StoreOutcome.ok)) :
    s.accounts.lookup id = some acc := by
  cases hl : s.accounts.lookup id with
  | none =>
    rw [Store.getAccount_missing s id (AList.lookup_eq_none.mp hl)] at hget
    simp at hget
  | some b =>
    rw [Store.getAccount_stored s id b hl] at hget
    have hb : b = acc := by simpa using hget
    rw [hb]

theorem Store.getAccount_congr (s₁ s₂ : Store) (id : String)
    (hl : s₁.accounts.lookup id = s₂.accounts.lookup id) :
    (s₁.GetAccount id).2 = (s₂.GetAccount id).2 := by
  unfold Store.GetAccount
  rw [hl]
  cases s₂.accounts.lookup id <;> rfl

theorem Store.createAccount_frame (s : Store) (h : Heap) (acc : AccountPtr) :
    (s.CreateAccount h acc).1.transactions = s.transactions ∧
    ∀ p id, acc = some p → id ≠ (h.cell p).ID →
      (s.CreateAccount h acc).1.accounts.lookup id = s.accounts.lookup id := by
  cases acc with
  | none => exact ⟨rfl, fun p id hp => by simp at hp⟩
  | some q =>
    by_cases hin : (h.cell q).ID ∈ s.accounts
    · rw [Store.createAccount_stored s h q hin]
      exact ⟨rfl, fun _ _ _ _ => rfl⟩
    · rw [Store.createAccount_fresh s h q hin]
      refine ⟨rfl, fun p id hp hne => ?_⟩
      have hqp : q = p := Option.some.inj hp
      subst hqp
      exact AList.lookup_insert_ne hne

theorem Store.updateAccount_frame (s : Store) (h : Heap) (acc : AccountPtr) :
    (s.UpdateAccount h acc).1.transactions = s.transactions ∧
    (∀ id, id ∈ (s.UpdateAccount h acc).1.accounts ↔ id ∈ s.accounts) ∧
    ∀ p id, acc = some p → id ≠ (h.cell p).ID →
      (s.UpdateAccount h acc).1.accounts.lookup id = s.accounts.lookup id := by
  cases acc with
  | none => exact ⟨rfl, fun _ => Iff.rfl, fun p id hp => by simp at hp⟩
  | some q =>
    by_cases hin : (h.cell q).ID ∈ s.accounts
    · rw [Store.updateAccount_stored s h q hin]
      refine ⟨rfl, fun id => ?_, fun p id hp hne => ?_⟩
      · constructor
        · intro hmem
          rcases (AList.mem_insert _).mp hmem with heq | hold
          · rw [heq]; exact hin
          · exact hold
        · intro hold
          exact (AList.mem_insert _).mpr (Or.inr hold)
      · have hqp : q = p := Option.some.inj hp
        subst hqp
        exact AList.lookup_insert_ne hne
    · rw [Store.updateAccount_missing s h q hin]
      exact ⟨rfl, fun _ => Iff.rfl, fun _ _ _ _ => rfl⟩

theorem Store.storeTransaction_accounts (s : Store) (th : TxHeap) (tx : TransactionPtr) :
    (s.StoreTransaction th tx).1.accounts = s.accounts := by
  cases tx with
  | none => rfl
  | some q =>
    by_cases hin : (th.cell q).ID ∈ s.transactions
    · rw [Store.storeTransaction_stored s th q hin]
    · rw [Store.storeTransaction_fresh s th q hin]

/-- One store call keeps every stored pointer non-nil and under the identifier of its
record. -/
theorem StoreOp.apply_keeps_keys (h : Heap) (th : TxHeap) (s : Store) (op : StoreOp)
    (hinv : ∀ id acc, s.accounts.lookup id = some acc →
      ∃ p, acc = some p ∧ (h.cell p).ID = id) :
    ∀ id acc, (StoreOp.apply h th s op).accounts.lookup id = some acc →
      ∃ p, acc = some p ∧ (h.cell p).ID = id := by
  have hins : ∀ q id acc,
      (s.accounts.insert (h.cell q).ID (some q)).lookup id = some acc →
      ∃ p, acc = some p ∧ (h.cell p).ID = id := by
    intro q id acc hl
    by_cases hid : id = (h.cell q).ID
    · subst hid
      rw [AList.lookup_insert] at hl
      exact ⟨q, (Option.some.inj hl).symm, rfl⟩
    · rw [AList.lookup_insert_ne hid] at hl
      exact hinv id acc hl
  intro id acc hl
  cases op with
  | create a =>
    cases a with
    | none => exact hinv id acc hl
    | some q =>
      by_cases hin : (h.cell q).ID ∈ s.accounts
      · simp only [StoreOp.apply, Store.createAccount_stored s h q hin] at hl
        exact hinv id acc hl
      · simp only [StoreOp.apply, Store.createAccount_fresh s h q hin] at hl
        exact hins q id acc hl
  | update a =>
    cases a with
    | none => exact hinv id acc hl
    | some q =>
      by_cases hin : (h.cell q).ID ∈ s.accounts
      · simp only [StoreOp.apply, Store.updateAccount_stored s h q hin] at hl
        exact hins q id acc hl
      · simp only [StoreOp.apply, Store.updateAccount_missing s h q hin] at hl
        exact hinv id acc hl
  | storeTransaction tx =>
    simp only [StoreOp.apply, Store.storeTransaction_accounts] at hl
    exact hinv id acc hl
  | clear =>
    simp only [StoreOp.apply, Store.Clear, AList.lookup_empty] at hl
    simp at hl

theorem runOps_keeps_keys (h : Heap) (th : TxHeap) (ops : List StoreOp) :
    ∀ s : Store,
      (∀ id acc, s.accounts.lookup id = some acc → ∃ p, acc = some p ∧ (h.cell p).ID = id) →
      ∀ id acc, (runOps h th s ops).accounts.lookup id = some acc →
        ∃ p, acc = some p ∧ (h.cell p).ID = id := by
  induction ops with
  | nil => intro s hinv; exact hinv
  | cons op rest ih =>
    intro s hinv
    exact ih (StoreOp.apply h th s op) (StoreOp.apply_keeps_keys h th s op hinv)

/-- C30: in every store reached from `NewStore` by a sequence of `CreateAccount`,
`UpdateAccount`, `StoreTransaction` and `Clear` calls, whatever `GetAccount(id)` returns
is a non-nil pointer to a record whose `ID` is `id`; `CreateAccount` and `UpdateAccount`
for a record leave what `GetAccount` returns for every other identifier, and all
transactions, unchanged; `UpdateAccount` never changes the set of stored identifiers;
and `StoreTransaction` leaves the accounts unchanged. -/
theorem store_key_invariant_and_frame (h : Heap) (th : TxHeap) (ops : List StoreOp)
    (s : Store) (p : Addr) (tx : TransactionPtr) :
    (∀ id acc, ((runOps h th NewStore ops).GetAccount id).2 = (acc, StoreOutcome.ok) →
      ∃ q, acc = some q ∧ (h.cell q).ID = id) ∧
    (∀ id, id ≠ (h.cell p).ID →
      ((s.CreateAccount h (some p)).1.GetAccount id).2 = (s.GetAccount id).2) ∧
    (s.CreateAccount h (some p)).1.transactions = s.transactions ∧
    (∀ id, id ≠ (h.cell p).ID →
      ((s.UpdateAccount h (some p)).1.GetAccount id).2 = (s.GetAccount id).2) ∧
    (s.UpdateAccount h (some p)).1.transactions = s.transactions ∧
    (∀ id, id ∈ (s.UpdateAccount h (some p)).1.accounts ↔ id ∈ s.accounts) ∧
    (s.StoreTransaction th tx).1.accounts = s.accounts := by
  refine ⟨?_, ?_, (Store.createAccount_frame s h (some p)).1, ?_,
    (Store.updateAccount_frame s h (some p)).1, (Store.updateAccount_frame s h (some p)).2.1,
    Store.storeTransaction_accounts s th tx⟩
  · intro id acc hget
    have hnew : ∀ id acc, NewStore.accounts.lookup id = some acc →
        ∃ q, acc = some q ∧ (h.cell q).ID = id := by
      intro id acc hl
      simp [NewStore, AList.lookup_empty] at hl
    exact runOps_keeps_keys h th ops NewStore hnew id acc
      (Store.getAccount_eq_ok _ id acc hget)
  · intro id hne
    exact Store.getAccount_congr _ _ id
      ((Store.createAccount_frame s h (some p)).2 p id rfl hne)
  · intro id hne
    exact Store.getAccount_congr _ _ id
      ((Store.updateAccount_frame s h (some p)).2.2 p id rfl hne)

/-- C30 (witness): the store reached by creating the sample accounts `A` and `B`, updating
`A` with its second record, storing a transaction, clearing, and creating `Z` and `A`
again: `Get` returns for `A` and `Z` records carrying these identifiers. -/
theorem store_key_invariant_and_frame_witness :
    ((runOps sampleHeap sampleTxHeap NewStore
        [StoreOp.create (some 0), StoreOp.create (some 1), StoreOp.update (some 2),
         StoreOp.storeTransaction (some 0), StoreOp.clear, StoreOp.create (some 3),
         StoreOp.create (some 2)]).GetAccount "A").2 = (some 2, StoreOutcome.ok) ∧
    (∃ q, (some 2 : AccountPtr) = some q ∧ (sampleHeap.cell q).ID = "A") ∧
    ((sampleStore.UpdateAccount sampleHeap (some 2)).1.GetAccount "B").2 =
      (sampleStore.GetAccount "B").2 :=
  have key := store_key_invariant_and_frame sampleHeap sampleTxHeap
    [StoreOp.create (some 0), StoreOp.create (some 1), StoreOp.update (some 2),
     StoreOp.storeTransaction (some 0), StoreOp.clear, StoreOp.create (some 3),
     StoreOp.create (some 2)] sampleStore 2 none
  ⟨by decide, key.1 "A" (some 2) (by decide), key.2.2.2.1 "B" (by decide)⟩

theorem Store.updateAccount_same_pointer (s : Store) (h : Heap) (id : String) (p : Addr)
    (hl : s.accounts.lookup id = some (some p)) :
    (s.UpdateAccount h (some p)).1.accounts.lookup id = some (some p) := by
  by_cases hin : (h.cell p).ID ∈ s.accounts
  · rw [Store.updateAccount_stored s h p hin]
    by_cases hid : id = (h.cell p).ID
    · subst hid; exact AList.lookup_insert _
    · exact (AList.lookup_insert_ne hid).trans hl
  · rw [Store.updateAccount_missing s h p hin]
    exact hl

/-- C26 (counterexample): in the sample store `Get("A")` returns the pointer 0; after a
successful deposit of 500 through that pointer, and before any `Update`, `Get("A")`
returns the same pointer, and the record it points to already has the balance 1500, not
the old balance 1000. -/
theorem mutation_seen_without_update :
    (sampleStore.GetAccount "A").2 = (some 0, StoreOutcome.ok) ∧
    (sampleHeap.cell 0).Balance = 1000 ∧
    (Deposit sampleHeap (sampleStore.GetAccount "A").2.1 500 7).2 = Outcome.ok ∧
    ((sampleStore.GetAccount "A").1.GetAccount "A").2 = (some 0, StoreOutcome.ok) ∧
    ((Deposit sampleHeap (sampleStore.GetAccount "A").2.1 500 7).1.cell 0).Balance = 1500 ∧
    ((Deposit sampleHeap (sampleStore.GetAccount "A").2.1 500 7).1.cell 0).Balance ≠
      (sampleHeap.cell 0).Balance := by
  decide

/-- C26 (amended): `Get(id)` returns the pointer the store itself holds, so a mutation of
the retrieved record is visible to every later `Get(id)` at once: after `acc := Get(id)`
and a successful `Deposit`, `Withdraw` or `Transfer` on `acc`, a further `Get(id)` made
before `Update(acc)` returns the same pointer, whose record already has the new balance,
different from the old one; `Update(acc)` then changes nothing in what `Get(id)`
returns. -/
theorem mutation_visible_before_update (s : Store) (h : Heap) (id : String) (p t : Addr)
    (amount : Int) (now : Time)
    (hl : s.accounts.lookup id = some (some p))
    (hb : InInt64 (h.cell p).Balance) (ha : InInt64 amount) :
    (s.GetAccount id).2 = (some p, StoreOutcome.ok) ∧
    ((s.GetAccount id).1.GetAccount id).2 = (some p, StoreOutcome.ok) ∧
    (∀ h2, ((s.UpdateAccount h2 (some p)).1.GetAccount id).2 = (some p, StoreOutcome.ok)) ∧
    ((Deposit h (some p) amount now).2 = Outcome.ok →
      ((Deposit h (some p) amount now).1.cell p).Balance =
        wrapInt64 ((h.cell p).Balance + amount) ∧
      ((Deposit h (some p) amount now).1.cell p).Balance ≠ (h.cell p).Balance) ∧
    ((Withdraw h (some p) amount now).2 = Outcome.ok →
      ((Withdraw h (some p) amount now).1.cell p).Balance = (h.cell p).Balance - amount ∧
      ((Withdraw h (some p) amount now).1.cell p).Balance ≠ (h.cell p).Balance) ∧
    ((Transfer h (some p) (some t) amount now).2 = Outcome.ok →
      ((Transfer h (some p) (some t) amount now).1.cell p).Balance =
        (h.cell p).Balance - amount ∧
      ((Transfer h (some p) (some t) amount now).1.cell p).Balance ≠ (h.cell p).Balance) := by
  have hget : s.GetAccount id = (s, some p, StoreOutcome.ok) :=
    Store.getAccount_stored s id (some p) hl
  unfold InInt64 at hb ha
  refine ⟨by rw [hget], by rw [hget]; exact congrArg Prod.snd hget, fun h2 => ?_, ?_, ?_, ?_⟩
  · rw [Store.getAccount_stored _ id (some p) (Store.updateAccount_same_pointer s h2 id p hl)]
  · rcases le_or_lt amount 0 with hpos | hpos
    · rw [deposit_some_nonpos h p now hpos]; intro hc; simp at hc
    · rw [deposit_some_pos h p now hpos, Heap.cell_set_same]
      intro _
      refine ⟨rfl, ?_⟩
      show wrapInt64 ((h.cell p).Balance + amount) ≠ (h.cell p).Balance
      unfold wrapInt64
      omega
  · rcases le_or_lt amount 0 with hpos | hpos
    · rw [withdraw_some_nonpos h p now hpos]; intro hc; simp at hc
    · rcases lt_or_le (h.cell p).Balance amount with hlt | hle
      · rw [withdraw_some_insufficient h p now hpos hlt]; intro hc; simp at hc
      · rw [withdraw_some_ok h p now hpos hle, Heap.cell_set_same]
        have hin : InInt64 ((h.cell p).Balance - amount) := by
          unfold InInt64; omega
        rw [wrapInt64_eq_self hin]
        intro _
        refine ⟨rfl, ?_⟩
        show (h.cell p).Balance - amount ≠ (h.cell p).Balance
        omega
  · by_cases hid : (h.cell p).ID = (h.cell t).ID
    · rw [transfer_same_id h p t amount now hid]; intro hc; simp at hc
    · rcases le_or_lt amount 0 with hpos | hpos
      · rw [transfer_nonpos h p t now hid hpos]; intro hc; simp at hc
      · rcases lt_or_le (h.cell p).Balance amount with hlt | hle
        · rw [transfer_insufficient h p t now hid hpos hlt]; intro hc; simp at hc
        · have hpt : p ≠ t := fun e => hid (by rw [e])
          rw [transfer_ok h p t now hid hpos hle, Heap.cell_set_other _ _ hpt,
            Heap.cell_set_same]
          have hin : InInt64 ((h.cell p).Balance - amount) := by
            unfold InInt64; omega
          rw [wrapInt64_eq_self hin]
          intro _
          refine ⟨rfl, ?_⟩
          show (h.cell p).Balance - amount ≠ (h.cell p).Balance
          omega

/-- C26 (witness): the sample store and the sample account `A`: after withdrawing 300
through the pointer `Get` returned, the record reached through `Get` holds 700, and
`Update` leaves `Get("A")` as it was. -/
theorem mutation_visible_before_update_witness :
    (sampleStore.accounts.lookup "A" = some (some 0) ∧
      InInt64 (sampleHeap.cell 0).Balance ∧ InInt64 300 ∧
      (Withdraw sampleHeap (some 0) 300 7).2 = Outcome.ok) ∧
    (sampleStore.GetAccount "A").2 = (some 0, StoreOutcome.ok) ∧
    ((Withdraw sampleHeap (some 0) 300 7).1.cell 0).Balance = 700 ∧
    ((sampleStore.UpdateAccount (Withdraw sampleHeap (some 0) 300 7).1 (some 0)).1.GetAccount
      "A").2 = (some 0, StoreOutcome.ok) :=
  have key := mutation_visible_before_update sampleStore sampleHeap "A" 0 1 300 7
    (by decide) (by decide) (by decide)
  ⟨by decide, key.1, ((key.2.2.2.2.1 (by decide)).1).trans (by decide),
   key.2.2.1 (Withdraw sampleHeap (some 0) 300 7).1⟩

/-- Run without interruption, the three statement steps of a request that holds its
pointer are exactly one call of `Withdraw`. -/
theorem WithdrawCall.callStep_fetched (c : WithdrawCall) (now : Time) (w : Heap × Store)
    (hst : c.stage = Stage.fetched) :
    c.callStep now w =
      (((Withdraw w.1 c.acc c.Amount now).1, w.2),
       { c with stage :=
          if (Withdraw w.1 c.acc c.Amount now).2 = Outcome.ok then Stage.debited
          else Stage.failed }) := by
  obtain ⟨aid, amt, acc, stage⟩ := c
  obtain ⟨h, s⟩ := w
  simp only at hst
  subst hst
  cases acc with
  | none =>
    simp [WithdrawCall.callStep, WithdrawCall.step, canWithdraw_none, withdraw_none]
  | some p =>
    rcases le_or_lt amt 0 with ha | ha
    · simp [WithdrawCall.callStep, WithdrawCall.step, canWithdraw_some,
        withdraw_some_nonpos h p now ha, ha]
    · rcases lt_or_le (h.cell p).Balance amt with hb | hb
      · simp [WithdrawCall.callStep, WithdrawCall.step, canWithdraw_some,
          withdraw_some_insufficient h p now ha hb, not_le.mpr ha, hb]
      · simp [WithdrawCall.callStep, WithdrawCall.step, canWithdraw_some,
          withdraw_some_ok h p now ha hb, not_le.mpr ha, not_lt.mpr hb, Heap.set]

theorem WithdrawCall.callStep_effect (c : WithdrawCall) (now : Time) (w : Heap × Store)
    (id : String) (p : Addr)
    (hl : w.2.accounts.lookup id = some (some p)) (hid : c.AccountID = id)
    (hbc : c.betweenCalls = true)
    (hacc : c.stage = Stage.fetched ∨ c.stage = Stage.debited → c.acc = some p)
    (h64 : InInt64 (w.1.cell p).Balance) :
    (c.callStep now w).1.2.accounts.lookup id = some (some p) ∧
    (c.callStep now w).2.AccountID = c.AccountID ∧
    (c.callStep now w).2.Amount = c.Amount ∧
    (c.callStep now w).2.betweenCalls = true ∧
    ((c.callStep now w).2.stage = Stage.fetched ∨ (c.callStep now w).2.stage = Stage.debited →
      (c.callStep now w).2.acc = some p) ∧
    (((c.callStep now w).2.succeeded = c.succeeded ∧
        ((c.callStep now w).1.1.cell p).Balance = (w.1.cell p).Balance) ∨
      (c.succeeded = false ∧ (c.callStep now w).2.succeeded = true ∧ 0 < c.Amount ∧
        c.Amount ≤ (w.1.cell p).Balance ∧
        ((c.callStep now w).1.1.cell p).Balance = (w.1.cell p).Balance - c.Amount)) := by
  obtain ⟨aid, amt, acc, stage⟩ := c
  obtain ⟨h, s⟩ := w
  simp only at hl hid hacc h64
  subst hid
  cases stage with
  | start =>
    simp [WithdrawCall.callStep, WithdrawCall.step, Store.getAccount_stored s aid (some p) hl,
      hl, WithdrawCall.succeeded, WithdrawCall.betweenCalls]
  | fetched =>
    have hp : acc = some p := hacc (Or.inl rfl)
    subst hp
    rw [WithdrawCall.callStep_fetched _ now (h, s) rfl]
    rcases le_or_lt amt 0 with ha | ha
    · simp [withdraw_some_nonpos h p now ha, hl, WithdrawCall.succeeded,
        WithdrawCall.betweenCalls]
    · rcases lt_or_le (h.cell p).Balance amt with hb | hb
      · simp [withdraw_some_insufficient h p now ha hb, hl, WithdrawCall.succeeded,
          WithdrawCall.betweenCalls]
      · have hin : InInt64 ((h.cell p).Balance - amt) := by
          unfold InInt64 at h64 ⊢; omega
        simp [withdraw_some_ok h p now ha hb, hl, WithdrawCall.succeeded,
          WithdrawCall.betweenCalls, Heap.cell_set_same, wrapInt64_eq_self hin, ha, hb]
  | debited =>
    have hp : acc = some p := hacc (Or.inr rfl)
    subst hp
    have hsame := Store.updateAccount_same_pointer s h aid p hl
    by_cases hin : (h.cell p).ID ∈ s.accounts
    · rw [Store.updateAccount_stored s h p hin] at hsame
      simp [WithdrawCall.callStep, WithdrawCall.step, Store.updateAccount_stored s h p hin,
        hsame, WithdrawCall.succeeded, WithdrawCall.betweenCalls]
    · simp [WithdrawCall.callStep, WithdrawCall.step, Store.updateAccount_missing s h p hin,
        hl, WithdrawCall.succeeded, WithdrawCall.betweenCalls]
  | checked => simp [WithdrawCall.betweenCalls] at hbc
  | subtracted => simp [WithdrawCall.betweenCalls] at hbc
  | panicked => simp [WithdrawCall.betweenCalls] at hbc
  | finished =>
    simp [WithdrawCall.callStep, WithdrawCall.step, hl, WithdrawCall.succeeded,
      WithdrawCall.betweenCalls]
  | failed =>
    simp [WithdrawCall.callStep, WithdrawCall.step, hl, WithdrawCall.succeeded,
      WithdrawCall.betweenCalls]
  | updateFailed =>
    simp [WithdrawCall.callStep, WithdrawCall.step, hl, WithdrawCall.succeeded,
      WithdrawCall.betweenCalls]

theorem SharedRecordInv.callStep_first (id : String) (p : Addr) (b0 a1 a2 : Int) (now : Time)
    (w : Heap × Store) (c1 c2 : WithdrawCall)
    (hinv : SharedRecordInv id p b0 a1 a2 (w, c1, c2)) :
    SharedRecordInv id p b0 a1 a2 ((c1.callStep now w).1, (c1.callStep now w).2, c2) := by
  obtain ⟨hl, ⟨hid1, ham1, hbc1⟩, hc2, hacc1, hacc2, hbal, hp1, hp2, hnn, h64⟩ := hinv
  simp only at hl hid1 ham1 hbc1 hacc1 hacc2 hbal hp1 hp2 hnn h64
  obtain ⟨kl, kid, kam, kbc, kacc, keff⟩ :=
    WithdrawCall.callStep_effect c1 now w id p hl hid1 hbc1 hacc1 h64
  refine ⟨kl, ⟨kid.trans hid1, kam.trans ham1, kbc⟩, hc2, kacc, hacc2, ?_⟩
  simp only
  unfold InInt64 at h64 ⊢
  rcases keff with ⟨hs, hb⟩ | ⟨hs0, hs1, hpos, hle, hb⟩
  · rw [hs, hb]
    exact ⟨hbal, hp1, hp2, hnn, h64⟩
  · rw [hs1, hb]
    rw [hs0] at hbal
    rw [ham1] at hpos hle
    simp only [Bool.false_eq_true, if_false, if_true, sub_zero, true_or, true_implies,
      forall_const] at hbal ⊢
    refine ⟨by omega, hpos, hp2, by omega, by omega, by omega⟩

theorem SharedRecordInv.callStep_second (id : String) (p : Addr) (b0 a1 a2 : Int) (now : Time)
    (w : Heap × Store) (c1 c2 : WithdrawCall)
    (hinv : SharedRecordInv id p b0 a1 a2 (w, c1, c2)) :
    SharedRecordInv id p b0 a1 a2 ((c2.callStep now w).1, c1, (c2.callStep now w).2) := by
  obtain ⟨hl, hc1, ⟨hid2, ham2, hbc2⟩, hacc1, hacc2, hbal, hp1, hp2, hnn, h64⟩ := hinv
  simp only at hl hid2 ham2 hbc2 hacc1 hacc2 hbal hp1 hp2 hnn h64
  obtain ⟨kl, kid, kam, kbc, kacc, keff⟩ :=
    WithdrawCall.callStep_effect c2 now w id p hl hid2 hbc2 hacc2 h64
  refine ⟨kl, hc1, ⟨kid.trans hid2, kam.trans ham2, kbc⟩, hacc1, kacc, ?_⟩
  simp only
  unfold InInt64 at h64 ⊢
  rcases keff with ⟨hs, hb⟩ | ⟨hs0, hs1, hpos, hle, hb⟩
  · rw [hs, hb]
    exact ⟨hbal, hp1, hp2, hnn, h64⟩
  · rw [hs1, hb]
    rw [hs0] at hbal
    rw [ham2] at hpos hle
    simp only [Bool.false_eq_true, if_false, if_true, sub_zero, or_true, true_implies,
      forall_const] at hbal ⊢
    refine ⟨by omega, hp1, hpos, by omega, by omega, by omega⟩

theorem runCalls_keeps_inv (id : String) (p : Addr) (b0 a1 a2 : Int)
    (sched : List (Bool × Time)) :
    ∀ st, SharedRecordInv id p b0 a1 a2 st →
      SharedRecordInv id p b0 a1 a2 (runCalls sched st) := by
  induction sched with
  | nil => intro st hinv; exact hinv
  | cons e rest ih =>
    intro st hinv
    obtain ⟨who, now⟩ := e
    obtain ⟨w, c1, c2⟩ := st
    cases who with
    | false =>
      simp only [runCalls, runWith, Bool.false_eq_true, if_false]
      exact ih _ (SharedRecordInv.callStep_first id p b0 a1 a2 now w c1 c2 hinv)
    | true =>
      simp only [runCalls, runWith, if_true]
      exact ih _ (SharedRecordInv.callStep_second id p b0 a1 a2 now w c1 c2 hinv)

theorem sharedRecordInv_initial (h : Heap) (s : Store) (id : String) (p : Addr) (a1 a2 : Int)
    (hl : s.accounts.lookup id = some (some p)) (hb : InInt64 (h.cell p).Balance) :
    SharedRecordInv id p (h.cell p).Balance a1 a2
      ((h, s), WithdrawCall.new id a1, WithdrawCall.new id a2) := by
  refine ⟨hl, ⟨rfl, rfl, rfl⟩, ⟨rfl, rfl, rfl⟩, ?_, ?_, ?_, ?_, ?_, ?_, hb⟩
  all_goals simp [WithdrawCall.new, WithdrawCall.succeeded]

theorem runWith_first
    (stepOf : WithdrawCall → Time → Heap × Store → (Heap × Store) × WithdrawCall)
    (now : Time) (rest : List (Bool × Time)) (w : Heap × Store) (c1 c2 : WithdrawCall) :
    runWith stepOf ((false, now) :: rest) (w, c1, c2) =
      runWith stepOf rest ((stepOf c1 now w).1, (stepOf c1 now w).2, c2) := by
  simp [runWith]

theorem runWith_second
    (stepOf : WithdrawCall → Time → Heap × Store → (Heap × Store) × WithdrawCall)
    (now : Time) (rest : List (Bool × Time)) (w : Heap × Store) (c1 c2 : WithdrawCall) :
    runWith stepOf ((true, now) :: rest) (w, c1, c2) =
      runWith stepOf rest ((stepOf c2 now w).1, c1, (stepOf c2 now w).2) := by
  simp [runWith]

theorem WithdrawCall.step_start_stored (aid : String) (amt : Int) (acc : AccountPtr)
    (now : Time) (h : Heap) (s : Store) (p : Addr)
    (hl : s.accounts.lookup aid = some (some p)) :
    WithdrawCall.step ⟨aid, amt, acc, Stage.start⟩ now (h, s) =
      ((h, s), ⟨aid, amt, some p, Stage.fetched⟩) := by
  simp [WithdrawCall.step, Store.getAccount_stored s aid (some p) hl]

theorem WithdrawCall.step_fetched_ok (aid : String) (amt : Int) (now : Time) (h : Heap)
    (s : Store) (p : Addr) (ha : 0 < amt) (hb : amt ≤ (h.cell p).Balance) :
    WithdrawCall.step ⟨aid, amt, some p, Stage.fetched⟩ now (h, s) =
      ((h, s), ⟨aid, amt, some p, Stage.checked⟩) := by
  simp [WithdrawCall.step, canWithdraw_some, not_le.mpr ha, not_lt.mpr hb]

theorem WithdrawCall.step_checked (aid : String) (amt : Int) (now : Time) (h : Heap)
    (s : Store) (p : Addr) :
    WithdrawCall.step ⟨aid, amt, some p, Stage.checked⟩ now (h, s) =
      ((h.set p { h.cell p with Balance := wrapInt64 ((h.cell p).Balance - amt) }, s),
       ⟨aid, amt, some p, Stage.subtracted⟩) := by
  simp [WithdrawCall.step]

theorem WithdrawCall.step_subtracted (aid : String) (amt : Int) (now : Time) (h : Heap)
    (s : Store) (p : Addr) :
    WithdrawCall.step ⟨aid, amt, some p, Stage.subtracted⟩ now (h, s) =
      ((h.set p { h.cell p with UpdatedAt := now }, s), ⟨aid, amt, some p, Stage.debited⟩) := by
  simp [WithdrawCall.step]

theorem WithdrawCall.step_debited_stored (aid : String) (amt : Int) (now : Time) (h : Heap)
    (s : Store) (p : Addr) (hin : (h.cell p).ID ∈ s.accounts) :
    WithdrawCall.step ⟨aid, amt, some p, Stage.debited⟩ now (h, s) =
      ((h, { s with accounts := s.accounts.insert (h.cell p).ID (some p) }),
       ⟨aid, amt, some p, Stage.finished⟩) := by
  simp [WithdrawCall.step, Store.updateAccount_stored s h p hin]

theorem Heap.set_set (h : Heap) (p : Addr) (a b : Account) :
    (h.set p a).set p b = h.set p b := by
  simp [Heap.set]

/-- The state after the four first steps of the race schedule: both requests have passed
`CanWithdraw`, and nothing has been written yet. -/
theorem race_after_checks (h : Heap) (s : Store) (id : String) (p : Addr) (a1 a2 : Int)
    (now : Time) (hl : s.accounts.lookup id = some (some p))
    (h1 : 0 < a1) (h1b : a1 ≤ (h.cell p).Balance)
    (h2 : 0 < a2) (h2b : a2 ≤ (h.cell p).Balance) :
    runSchedule ((raceSchedule now).take 4)
        ((h, s), WithdrawCall.new id a1, WithdrawCall.new id a2) =
      ((h, s), ⟨id, a1, some p, Stage.checked⟩, ⟨id, a2, some p, Stage.checked⟩) := by
  simp only [runSchedule, raceSchedule, List.take, WithdrawCall.new]
  rw [runWith_first, WithdrawCall.step_start_stored id a1 none now h s p hl]
  rw [runWith_second, WithdrawCall.step_start_stored id a2 none now h s p hl]
  rw [runWith_first, WithdrawCall.step_fetched_ok id a1 now h s p h1 h1b]
  rw [runWith_second, WithdrawCall.step_fetched_ok id a2 now h s p h2 h2b]
  rfl

/-- The state at the end of the race schedule. -/
theorem race_final (h : Heap) (s : Store) (id : String) (p : Addr) (a1 a2 : Int)
    (now : Time) (hl : s.accounts.lookup id = some (some p)) (hkey : (h.cell p).ID = id)
    (h1 : 0 < a1) (h1b : a1 ≤ (h.cell p).Balance)
    (h2 : 0 < a2) (h2b : a2 ≤ (h.cell p).Balance) :
    runSchedule (raceSchedule now)
        ((h, s), WithdrawCall.new id a1, WithdrawCall.new id a2) =
      ((h.set p { h.cell p with
                    Balance := wrapInt64 (wrapInt64 ((h.cell p).Balance - a1) - a2),
                    UpdatedAt := now },
        { s with accounts := (s.accounts.insert id (some p)).insert id (some p) }),
       ⟨id, a1, some p, Stage.finished⟩, ⟨id, a2, some p, Stage.finished⟩) := by
  have hin : id ∈ s.accounts := AList.lookup_isSome.mp (by rw [hl]; rfl)
  simp only [runSchedule, raceSchedule, WithdrawCall.new]
  rw [runWith_first, WithdrawCall.step_start_stored id a1 none now h s p hl]
  rw [runWith_second, WithdrawCall.step_start_stored id a2 none now h s p hl]
  rw [runWith_first, WithdrawCall.step_fetched_ok id a1 now h s p h1 h1b]
  rw [runWith_second, WithdrawCall.step_fetched_ok id a2 now h s p h2 h2b]
  rw [runWith_first, WithdrawCall.step_checked]
  rw [runWith_second, WithdrawCall.step_checked, Heap.set_set, Heap.cell_set_same]
  rw [runWith_first, WithdrawCall.step_subtracted, Heap.set_set, Heap.cell_set_same]
  rw [runWith_second, WithdrawCall.step_subtracted, Heap.set_set, Heap.cell_set_same]
  rw [runWith_first, WithdrawCall.step_debited_stored _ _ _ _ _ _
    (by rw [Heap.cell_set_same]; exact hkey ▸ hin)]
  rw [runWith_second, WithdrawCall.step_debited_stored _ _ _ _ _ _
    (by rw [Heap.cell_set_same]; exact (AList.mem_insert _).mpr (Or.inr (hkey ▸ hin)))]
  simp only [Heap.cell_set_same, hkey]
  rfl

/-- C25 (counterexample): the negation of the claim at the granularity it names.  There
is no heap, store, stored account, pair of amounts and schedule of whole calls of two
`Get`, `Withdraw`, `Update` cycles in which both withdrawals succeed although the two
amounts together exceed the balance the account had at the start: `Get` hands both
requests the store's own record, so a `Withdraw` that runs as a whole sees every earlier
one. -/
theorem no_lost_update_between_whole_calls :
    ¬ ∃ (h : Heap) (s : Store) (id : String) (p : Addr) (a1 a2 : Int)
        (sched : List (Bool × Time)),
      s.accounts.lookup id = some (some p) ∧ InInt64 (h.cell p).Balance ∧
      (runCalls sched
        ((h, s), WithdrawCall.new id a1, WithdrawCall.new id a2)).2.1.succeeded = true ∧
      (runCalls sched
        ((h, s), WithdrawCall.new id a1, WithdrawCall.new id a2)).2.2.succeeded = true ∧
      (h.cell p).Balance < a1 + a2 := by
  rintro ⟨h, s, id, p, a1, a2, sched, hl, hb, hs1, hs2, hlt⟩
  obtain ⟨_, _, _, _, _, hbal, _, _, hnn, _⟩ :=
    runCalls_keeps_inv id p (h.cell p).Balance a1 a2 sched _
      (sharedRecordInv_initial h s id p a1 a2 hl hb)
  have h0 := hnn (Or.inl hs1)
  rw [hbal, hs1, hs2] at h0
  simp only [if_true] at h0
  omega

/-- C25 (amended): the race sits inside `Withdraw`, which runs under no lock.  For every
account stored under its identifier with an `int64` balance `b`, and every two amounts
with `0 < a1 <= b` and `0 < a2 <= b`, in the schedule where the two requests alternate
statement by statement both pass `CanWithdraw` before anything is written (both read the
balance `b`), both withdrawals succeed and both `Update` calls succeed; both debits are
applied to the one shared record, whose balance ends at `b - a1 - a2`, negative when the
two amounts together exceed `b`; and `Get` still returns the same pointer, so no `Update`
has overwritten anything. -/
theorem withdrawals_race_inside_withdraw (h : Heap) (s : Store) (id : String) (p : Addr)
    (a1 a2 : Int) (now : Time)
    (hl : s.accounts.lookup id = some (some p)) (hkey : (h.cell p).ID = id)
    (hb : InInt64 (h.cell p).Balance)
    (h1 : 0 < a1) (h1b : a1 ≤ (h.cell p).Balance)
    (h2 : 0 < a2) (h2b : a2 ≤ (h.cell p).Balance) :
    ((runSchedule ((raceSchedule now).take 4)
        ((h, s), WithdrawCall.new id a1, WithdrawCall.new id a2)).2.1.passedCheck = true ∧
      (runSchedule ((raceSchedule now).take 4)
        ((h, s), WithdrawCall.new id a1, WithdrawCall.new id a2)).2.2.passedCheck = true ∧
      (runSchedule ((raceSchedule now).take 4)
        ((h, s), WithdrawCall.new id a1, WithdrawCall.new id a2)).1.1 = h) ∧
    ((runSchedule (raceSchedule now)
        ((h, s), WithdrawCall.new id a1, WithdrawCall.new id a2)).2.1.stage = Stage.finished ∧
      (runSchedule (raceSchedule now)
        ((h, s), WithdrawCall.new id a1, WithdrawCall.new id a2)).2.2.stage = Stage.finished ∧
      (runSchedule (raceSchedule now)
        ((h, s), WithdrawCall.new id a1, WithdrawCall.new id a2)).2.1.succeeded = true ∧
      (runSchedule (raceSchedule now)
        ((h, s), WithdrawCall.new id a1, WithdrawCall.new id a2)).2.2.succeeded = true) ∧
    ((runSchedule (raceSchedule now)
        ((h, s), WithdrawCall.new id a1, WithdrawCall.new id a2)).1.1.cell p).Balance =
      (h.cell p).Balance - a1 - a2 ∧
    ((h.cell p).Balance < a1 + a2 →
      ((runSchedule (raceSchedule now)
        ((h, s), WithdrawCall.new id a1, WithdrawCall.new id a2)).1.1.cell p).Balance < 0) ∧
    ((runSchedule (raceSchedule now)
        ((h, s), WithdrawCall.new id a1, WithdrawCall.new id a2)).1.2.GetAccount id).2 =
      (some p, StoreOutcome.ok) := by
  rw [race_after_checks h s id p a1 a2 now hl h1 h1b h2 h2b,
    race_final h s id p a1 a2 now hl hkey h1 h1b h2 h2b]
  unfold InInt64 at hb
  have hin1 : InInt64 ((h.cell p).Balance - a1) := by
    unfold InInt64; omega
  have hin2 : InInt64 ((h.cell p).Balance - a1 - a2) := by
    unfold InInt64; omega
  have hbal : ((h.set p { h.cell p with
      Balance := wrapInt64 (wrapInt64 ((h.cell p).Balance - a1) - a2),
      UpdatedAt := now }).cell p).Balance = (h.cell p).Balance - a1 - a2 := by
    rw [Heap.cell_set_same]
    show wrapInt64 (wrapInt64 ((h.cell p).Balance - a1) - a2) = _
    rw [wrapInt64_eq_self hin1, wrapInt64_eq_self hin2]
  refine ⟨⟨by simp [WithdrawCall.passedCheck], by simp [WithdrawCall.passedCheck], rfl⟩,
    ⟨rfl, rfl, by simp [WithdrawCall.succeeded], by simp [WithdrawCall.succeeded]⟩, hbal, ?_, ?_⟩
  · intro hlt
    show ((h.set p { h.cell p with
      Balance := wrapInt64 (wrapInt64 ((h.cell p).Balance - a1) - a2),
      UpdatedAt := now }).cell p).Balance < 0
    rw [hbal]
    omega
  · exact congrArg Prod.snd
      (Store.getAccount_stored _ id (some p) (AList.lookup_insert _))

/-- C25 (witness): two requests to withdraw 600 from the sample account `A` with balance
1000, alternating statement by statement: both succeed and the balance ends at -200. -/
theorem withdrawals_race_inside_withdraw_witness :
    (sampleStore.accounts.lookup "A" = some (some 0) ∧ (sampleHeap.cell 0).ID = "A" ∧
      InInt64 (sampleHeap.cell 0).Balance ∧ (600 : Int) ≤ (sampleHeap.cell 0).Balance ∧
      (sampleHeap.cell 0).Balance < 600 + 600) ∧
    (runSchedule (raceSchedule 7)
      ((sampleHeap, sampleStore), WithdrawCall.new "A" 600,
        WithdrawCall.new "A" 600)).2.1.succeeded = true ∧
    (runSchedule (raceSchedule 7)
      ((sampleHeap, sampleStore), WithdrawCall.new "A" 600,
        WithdrawCall.new "A" 600)).2.2.succeeded = true ∧
    ((runSchedule (raceSchedule 7)
      ((sampleHeap, sampleStore), WithdrawCall.new "A" 600,
        WithdrawCall.new "A" 600)).1.1.cell 0).Balance = -200 :=
  have key := withdrawals_race_inside_withdraw sampleHeap sampleStore "A" 0 600 600 7
    (by decide) (by decide) (by decide) (by decide) (by decide) (by decide) (by decide)
  ⟨by decide, key.2.1.2.2.1, key.2.1.2.2.2, key.2.2.1.trans (by decide)⟩

end Banking
